import Mathlib

set_option maxRecDepth 16000

/-!
Verification of the bankroll Fidelity broker importer and the Interactive
Brokers importer against their natural-language specification.

The Python sources under verification are `bankroll/brokers/fidelity/account.py`
and `ibkr.py`.  Pure functions are translated into Lean functions; the CSV
files read from disk are passed in as lists of rows (each row a list of cell
strings); Python exceptions become `Except ParseError`; `decimal.Decimal`
values are represented as rationals.  The shared `bankroll.model`,
`bankroll.broker.parsetools` and `bankroll.broker.csvsectionslicer` modules are
not part of this repository's sources; their definitions are modelled from the
specification and are marked as such.
-/

/-- Modelled from the spec: the error taxonomy of §7 (`MalformedRecord`,
`InvariantViolation`, `UnknownCode`, `UnsupportedInstrument`); the raising of
Python exceptions in the translated code is mapped onto these kinds. -/
inductive ParseError
  | malformed
  | invariantViolation
  | unknownCode
  | unsupportedInstrument
deriving DecidableEq

deriving instance DecidableEq for Except

/-- Modelled from the spec: `Currency`, a closed enumeration of ISO-style
currency codes used as a tag on every money value (§3).  Only a representative
subset of codes is listed; claims never depend on the exact membership. -/
inductive Currency
  | USD
  | EUR
  | GBP
  | JPY
  | CAD
  | AUD
deriving DecidableEq

/-- Modelled from the spec: lookup of a `Currency` member from its code string,
standing in both for Python's `Currency[name]` and `Currency(value)` (the
enumeration's member names equal their values). -/
def Currency.fromCode : String → Option Currency
  | "USD" => some Currency.USD
  | "EUR" => some Currency.EUR
  | "GBP" => some Currency.GBP
  | "JPY" => some Currency.JPY
  | "CAD" => some Currency.CAD
  | "AUD" => some Currency.AUD
  | _ => none

/-- Modelled from the spec: `Cash`, a (currency, arbitrary-precision decimal
amount) pair (§3); the decimal amount is represented as a rational. -/
structure Cash where
  currency : Currency
  quantity : ℚ
deriving DecidableEq

/-- Modelled from the spec: `Cash` addition (§4.3).  It is only ever applied to
two values of the same currency (different-currency arithmetic is disallowed
by the model layer and never reached by the translated code). -/
def Cash.add (a b : Cash) : Cash :=
  { currency := a.currency, quantity := a.quantity + b.quantity }

/-- A calendar date; Python `datetime.date`/`datetime.datetime` values carry no
time-of-day anywhere the translated code inspects them. -/
structure Date where
  year : Nat
  month : Nat
  day : Nat
deriving DecidableEq

def isLeapYear (y : Nat) : Bool :=
  y % 4 = 0 && (y % 100 ≠ 0 || y % 400 = 0)

def daysInMonth (y m : Nat) : Nat :=
  if m = 2 then (if isLeapYear y then 29 else 28)
  else if m = 4 || m = 6 || m = 9 || m = 11 then 30
  else 31

/-- The validity check Python's `datetime.date(year, month, day)` performs. -/
def validDate (y m d : Nat) : Bool :=
  1 ≤ m && m ≤ 12 && 1 ≤ d && d ≤ daysInMonth y m

/-- Python's `datetime.date` constructor: a valid date or a `ValueError`. -/
def mkValidDate (y m d : Nat) : Option Date :=
  if validDate y m d then some { year := y, month := m, day := d } else none

inductive OptionType
  | PUT
  | CALL
deriving DecidableEq

/-- Modelled from the spec: the closed `Instrument` family (§3), as a tagged
sum over {Stock, Bond, Option, FutureOption, Future, Forex}. -/
inductive Instrument
  | stock (symbol : String) (currency : Currency)
  | bond (symbol : String) (currency : Currency)
  | option (underlying : String) (currency : Currency) (expiration : Date)
      (optionType : OptionType) (strike : ℚ)
  | futureOption (symbol : String) (currency : Currency) (underlying : String)
      (optionType : OptionType) (expiration : Date) (strike : ℚ)
  | future (symbol : String) (currency : Currency)
  | forex (symbol : String) (currency : Currency)
deriving DecidableEq

/-- Modelled from the spec: the broker-agnostic bond-symbol predicate (§3),
whose concrete definition lives in the model package outside this repository;
a CUSIP-shaped check (nine characters, alphanumeric, starting with a digit)
stands in for it.  No claim depends on which symbols it accepts. -/
def validBondSymbol (symbol : String) : Bool :=
  let cs := symbol.toList
  cs.length = 9 && cs.all (fun c => c.isDigit || ('A' ≤ c && c ≤ 'Z'))
    && (cs.headD 'A').isDigit

/-- Modelled from the spec: `Bond` construction, which validates the symbol
against `validBondSymbol` unless validation is disabled (§3, §4.3). -/
def mkBond (symbol : String) (currency : Currency) (validateSymbol : Bool) :
    Except ParseError Instrument :=
  if validateSymbol && !validBondSymbol symbol then Except.error ParseError.malformed
  else Except.ok (Instrument.bond symbol currency)

/-- Modelled from the spec: `TradeFlags`, a bit-set of independent trade
annotations (§3), as a record of named bits. -/
structure TradeFlags where
  opening : Bool
  closing : Bool
  assignedOrExercised : Bool
  expired : Bool
  drip : Bool
deriving DecidableEq

def TradeFlags.NONE : TradeFlags :=
  ⟨false, false, false, false, false⟩

def TradeFlags.OPEN : TradeFlags :=
  ⟨true, false, false, false, false⟩

def TradeFlags.CLOSE : TradeFlags :=
  ⟨false, true, false, false, false⟩

def TradeFlags.ASSIGNED_OR_EXERCISED : TradeFlags :=
  ⟨false, false, true, false, false⟩

def TradeFlags.EXPIRED : TradeFlags :=
  ⟨false, false, false, true, false⟩

def TradeFlags.DRIP : TradeFlags :=
  ⟨false, false, false, false, true⟩

/-- Bitwise union of two flag sets (Python `|` on the flag enumeration). -/
def TradeFlags.union (a b : TradeFlags) : TradeFlags :=
  ⟨a.opening || b.opening, a.closing || b.closing,
   a.assignedOrExercised || b.assignedOrExercised,
   a.expired || b.expired, a.drip || b.drip⟩

/-- Modelled from the spec: `Trade` (§3). -/
structure Trade where
  date : Date
  instrument : Instrument
  quantity : ℚ
  amount : Cash
  fees : Cash
  flags : TradeFlags
deriving DecidableEq

/-- Modelled from the spec: `CashPayment` (§3). -/
structure CashPayment where
  date : Date
  instrument : Option Instrument
  proceeds : Cash
deriving DecidableEq

/-- Modelled from the spec: `Activity`, the union of `Trade` and
`CashPayment` (§3). -/
inductive Activity
  | trade (t : Trade)
  | payment (p : CashPayment)
deriving DecidableEq

/-- Modelled from the spec: `Position` (§3). -/
structure Position where
  instrument : Instrument
  quantity : ℚ
  costBasis : Cash
deriving DecidableEq

/-- Modelled from the spec: `AccountBalance`, a mapping from currency to cash
(§3), represented as an association list. -/
structure AccountBalance where
  cash : List (Currency × Cash)
deriving DecidableEq

/-- Modelled from the spec: `Quote` (§3); any leg may be absent. -/
structure Quote where
  bid : Option Cash
  ask : Option Cash
  last : Option Cash
deriving DecidableEq

/- ## Numeric string parsing (`decimal.Decimal` on CSV cells) -/

def digitVal (c : Char) : Nat :=
  c.toNat - '0'.toNat

def digitsToNat (cs : List Char) : Nat :=
  cs.foldl (fun n c => 10 * n + digitVal c) 0

/-- The fragment of Python's decimal numeric-string grammar exercised by the
export formats: an optional sign, an integer part and an optional fractional
part with at least one digit overall (exponents, specials and underscores do
not occur in the data the importers read and are not modelled). -/
def parseUnsignedDecimal (cs : List Char) : Option ℚ :=
  let intPart := cs.takeWhile Char.isDigit
  let rest := cs.drop intPart.length
  match rest with
  | [] => if intPart.isEmpty then none else some (digitsToNat intPart : ℚ)
  | '.' :: frac =>
    if frac.all Char.isDigit && !(intPart.isEmpty && frac.isEmpty) then
      some ((digitsToNat intPart : ℚ) + (digitsToNat frac : ℚ) / (10 ^ frac.length : ℚ))
    else none
  | _ => none

/-- Python's `decimal.Decimal` constructor on a string: a rational on success,
`none` where the constructor raises `InvalidOperation`. -/
def Decimal (s : String) : Option ℚ :=
  match s.toList with
  | '-' :: cs => (parseUnsignedDecimal cs).map Neg.neg
  | '+' :: cs => parseUnsignedDecimal cs
  | cs => parseUnsignedDecimal cs

/- ## Date string parsing (`datetime.strptime`) -/

/-- Two decimal digit characters to a number. -/
def twoDigits : List Char → Option Nat
  | [a, b] => if a.isDigit && b.isDigit then some (10 * digitVal a + digitVal b) else none
  | _ => none

/-- `strptime` with format `%y%m%d`: six digits; two-digit years 00–68 map to
2000–2068 and 69–99 to 1969–1999 (POSIX rule), and the date is validated. -/
def parseYYMMDD (cs : List Char) : Option Date :=
  match cs with
  | [y1, y2, m1, m2, d1, d2] =>
    match twoDigits [y1, y2], twoDigits [m1, m2], twoDigits [d1, d2] with
    | some yy, some mm, some dd =>
      let year := if yy ≤ 68 then 2000 + yy else 1900 + yy
      mkValidDate year mm dd
    | _, _, _ => none
  | _ => none

/-- `strptime` with format `%Y%m%d` on the eight-digit dates the report
carries: a four-digit year, then month and day, validated. -/
def parseYYYYMMDD (s : String) : Option Date :=
  match s.toList with
  | [a, b, c, d, m1, m2, d1, d2] =>
    if [a, b, c, d].all Char.isDigit then
      match twoDigits [m1, m2], twoDigits [d1, d2] with
      | some mm, some dd => mkValidDate (digitsToNat [a, b, c, d]) mm dd
      | _, _ => none
    else none
  | _ => none

/- ## Parsing utilities (spec-modelled: `bankroll.broker` helpers) -/

/-- Modelled from the spec: `parsetools.lenientParse` (§4.1, §7), which is not
under this repository's sources.  In strict mode any error aborts the pass; in
lenient mode a failing record is skipped, except that an `InvariantViolation`
aborts regardless of mode (§7). -/
def lenientParse {α β : Type} (transform : α → Except ParseError β) (lenient : Bool) :
    List α → Except ParseError (List β)
  | [] => Except.ok []
  | x :: xs =>
    match transform x with
    | Except.ok y =>
      match lenientParse transform lenient xs with
      | Except.ok ys => Except.ok (y :: ys)
      | Except.error e => Except.error e
    | Except.error e =>
      if lenient = true then
        if e = ParseError.invariantViolation then Except.error e
        else lenientParse transform lenient xs
      else Except.error e

/-- Modelled from the spec: a CSV section criterion (§4.1): a start-of-section
header pattern matched against a row's leading cells, an end-of-section marker
(the empty list meaning end-of-file, otherwise that many consecutive blank
rows), and a row filter/projection applied to each captured row. -/
structure CSVSectionCriterion where
  startSectionRowMatch : List String
  endSectionRowMatch : List String
  rowFilter : List String → Option (List String)

/-- A captured section.  The source keys sections by the criterion object
itself; here a section carries the index of its criterion in the list given to
the slicer, which the importer uses for the same dispatch. -/
structure CSVSection where
  criterionIdx : Nat
  rows : List (List String)

/-- A blank CSV line (no cells, or only empty cells). -/
def isBlankRow (r : List String) : Bool :=
  r.all (fun c => c == "")

/-- The row's leading cells equal the start pattern. -/
def rowMatchesStart (pattern row : List String) : Bool :=
  row.take pattern.length == pattern

/-- Internal scan state of the section slicer. -/
structure SliceState where
  pending : List (Nat × CSVSectionCriterion)
  current : Option (Nat × CSVSectionCriterion × List (List String) × Nat)
  finished : List CSVSection

def sliceStep (st : SliceState) (row : List String) : SliceState :=
  match st.current with
  | some (idx, crit, acc, blanks) =>
    if crit.endSectionRowMatch.length ≠ 0 && isBlankRow row then
      if blanks + 1 = crit.endSectionRowMatch.length then
        { st with current := none,
                  finished := st.finished ++ [{ criterionIdx := idx, rows := acc }] }
      else { st with current := some (idx, crit, acc, blanks + 1) }
    else
      match crit.rowFilter row with
      | some r => { st with current := some (idx, crit, acc ++ [r], 0) }
      | none => { st with current := some (idx, crit, acc, 0) }
  | none =>
    match st.pending.find? (fun p => rowMatchesStart p.2.startSectionRowMatch row) with
    | some (idx, crit) =>
      { st with pending := st.pending.filter (fun p => p.1 ≠ idx),
                current := some (idx, crit, [], 0) }
    | none => st

/-- Modelled from the spec: `csvsectionslicer.parseSectionsForCSV` (§4.1),
which is not under this repository's sources.  Scans the rows once top to
bottom; each criterion captures the run of rows strictly between its start
marker and its end marker, with the row filter applied; rows outside any open
section are ignored; a section still open at end-of-file is returned with the
rows captured so far. -/
def parseSectionsForCSV (rows : List (List String))
    (criteria : List CSVSectionCriterion) : List CSVSection :=
  let init : SliceState :=
    { pending := criteria.enum, current := none, finished := [] }
  let final := rows.foldl sliceStep init
  match final.current with
  | some (idx, _, acc, _) =>
    final.finished ++ [{ criterionIdx := idx, rows := acc }]
  | none => final.finished

/-- Lift an optional value into `Except`, raising the given error when absent
(the pattern of a Python call that raises on bad input). -/
def ofOption {α : Type} : Option α → ParseError → Except ParseError α
  | some a, _ => Except.ok a
  | none, e => Except.error e

/- ## Fidelity importer (`bankroll/brokers/fidelity/account.py`) -/

/-- The 7-column positions row (`_FidelityPosition`). -/
structure _FidelityPosition where
  symbol : String
  description : String
  quantity : String
  price : String
  beginningValue : String
  endingValue : String
  costBasis : String
deriving DecidableEq

/-- `_FidelityPosition._make(r[0:7])`: the source truncates the row to seven
cells and requires exactly seven; field selection below reads the same first
seven cells, and callers guard the length. -/
def _FidelityPosition.make (r : List String) : _FidelityPosition :=
  { symbol := r.getD 0 "", description := r.getD 1 "", quantity := r.getD 2 "",
    price := r.getD 3 "", beginningValue := r.getD 4 "", endingValue := r.getD 5 "",
    costBasis := r.getD 6 "" }

/-- `_FidelityMonth[...]`: three-letter month abbreviation to month number. -/
def _FidelityMonth : String → Option Nat
  | "JAN" => some 1
  | "FEB" => some 2
  | "MAR" => some 3
  | "APR" => some 4
  | "MAY" => some 5
  | "JUN" => some 6
  | "JUL" => some 7
  | "AUG" => some 8
  | "SEP" => some 9
  | "OCT" => some 10
  | "NOV" => some 11
  | "DEC" => some 12
  | _ => none

/-- `strptime(two-digit-year, "%y").year`: 00–68 → 2000s, 69–99 → 1900s. -/
def yearFromTwoDigits (yy : Nat) : Nat :=
  if yy ≤ 68 then 2000 + yy else 1900 + yy

def isUpperAZ (c : Char) : Bool :=
  'A' ≤ c && c ≤ 'Z'

/-- Python's `$` anchor matches at the end of the string or just before one
final newline; regex-translated matchers are wrapped in this rule. -/
def dollarAnchored {α : Type} (core : List Char → Option α) (cs : List Char) : Option α :=
  match core cs with
  | some a => some a
  | none =>
    if cs.getLast? = some '\x0a' then core cs.dropLast else none

/-- The core of the options-description regex
`^(CALL|PUT) \((underlying:[A-Z]+)\) .+ (month:[A-Z]{3}) (day:\d{2})
(year:\d{2}) \$(strike:[0-9.]+) \(100 SHS\)$`, decomposed deterministically:
every group after the greedy `.+` is pinned by the end anchor, so matching the
tail from the right is equivalent to the regex search. -/
def optionsDescriptionCore (cs : List Char) :
    Option (OptionType × List Char × List Char × List Char × List Char) :=
  let prefixed : Option (OptionType × List Char) :=
    if (("CALL (").toList).isPrefixOf cs then some (OptionType.CALL, cs.drop 6)
    else if (("PUT (").toList).isPrefixOf cs then some (OptionType.PUT, cs.drop 5)
    else none
  match prefixed with
  | none => none
  | some (ot, rest) =>
    let underlying := rest.takeWhile isUpperAZ
    if underlying.isEmpty then none
    else
      match rest.drop underlying.length with
      | ')' :: ' ' :: r3 =>
        if (((" (100 SHS)").toList).isSuffixOf r3) then
          let r4 := r3.take (r3.length - 10)
          let r4r := r4.reverse
          let strikeRev := r4r.takeWhile (fun c => c.isDigit || c == '.')
          if strikeRev.isEmpty then none
          else
            match r4r.drop strikeRev.length with
            | '$' :: ' ' :: y2 :: y1 :: ' ' :: d2 :: d1 :: ' ' :: mo3 :: mo2 :: mo1 :: ' ' :: preRev =>
              if [y1, y2, d1, d2].all Char.isDigit && [mo1, mo2, mo3].all isUpperAZ
                  && !preRev.isEmpty && preRev.all (fun c => c ≠ '\x0a') then
                some (ot, underlying, [mo1, mo2, mo3], [d1, d2], [y1, y2] ++ [] )
              else none
            | _ => none
        else none
      | _ => none

/-- The strike characters of a matching options description (the group the
previous matcher pins between `\$` and ` (100 SHS)`). -/
def optionsDescriptionStrike (cs : List Char) : Option (List Char) :=
  let prefixed : Option (List Char) :=
    if (("CALL (").toList).isPrefixOf cs then some (cs.drop 6)
    else if (("PUT (").toList).isPrefixOf cs then some (cs.drop 5)
    else none
  match prefixed with
  | none => none
  | some rest =>
    match rest.drop (rest.takeWhile isUpperAZ).length with
    | ')' :: ' ' :: r3 =>
      if (((" (100 SHS)").toList).isSuffixOf r3) then
        let r4r := (r3.take (r3.length - 10)).reverse
        some ((r4r.takeWhile (fun c => c.isDigit || c == '.')).reverse)
      else none
    | _ => none

/-- `_parseOptionsPosition`: parse a Fidelity options-position description via
the regex above; a non-matching description, unknown month abbreviation,
invalid calendar date or unparseable strike raises. -/
def _parseOptionsPosition (description : String) : Except ParseError Instrument :=
  match dollarAnchored optionsDescriptionCore description.toList,
        dollarAnchored optionsDescriptionStrike description.toList with
  | some (ot, underlying, monthChars, dayChars, yearChars), some strikeChars => do
    let month ← ofOption (_FidelityMonth (String.mk monthChars)) ParseError.malformed
    let yy ← ofOption (twoDigits yearChars) ParseError.malformed
    let day ← ofOption (twoDigits dayChars) ParseError.malformed
    let expiration ← ofOption (mkValidDate (yearFromTwoDigits yy) month day) ParseError.malformed
    let strike ← ofOption (Decimal (String.mk strikeChars)) ParseError.malformed
    Except.ok (Instrument.option (String.mk underlying) Currency.USD expiration ot strike)
  | _, _ => Except.error ParseError.malformed

/-- `_parseFidelityPosition`: quantity and cost basis parsed as decimals, the
instrument built by the per-section factory. -/
def _parseFidelityPosition (p : _FidelityPosition)
    (instrumentFactory : _FidelityPosition → Except ParseError Instrument) :
    Except ParseError Position := do
  let qty ← ofOption (Decimal p.quantity) ParseError.malformed
  let instrument ← instrumentFactory p
  let basis ← ofOption (Decimal p.costBasis) ParseError.malformed
  Except.ok { instrument := instrument, quantity := qty,
              costBasis := { currency := Currency.USD, quantity := basis } }

def stocksCriterion : CSVSectionCriterion :=
  { startSectionRowMatch := ["Stocks"], endSectionRowMatch := [""],
    rowFilter := fun r => some (r.take 7) }

def bondsCriterion : CSVSectionCriterion :=
  { startSectionRowMatch := ["Bonds"], endSectionRowMatch := [""],
    rowFilter := fun r => some (r.take 7) }

def optionsCriterion : CSVSectionCriterion :=
  { startSectionRowMatch := ["Options"], endSectionRowMatch := ["", ""],
    rowFilter := fun r => some (r.take 7) }

/-- The `instrumentBySection` dispatch, keyed here by the position of the
criterion in the list handed to the slicer (the source keys the dictionary by
the criterion object itself). -/
def fidelityInstrumentFactory (idx : Nat) (p : _FidelityPosition) :
    Except ParseError Instrument :=
  match idx with
  | 0 => Except.ok (Instrument.stock p.symbol Currency.USD)
  | 1 => mkBond p.symbol Currency.USD true
  | 2 => _parseOptionsPosition p.description
  | _ => Except.error ParseError.malformed

/-- `_parsePositions`: slice the Stocks/Bonds/Options sections and turn each
row into a `Position`.  The `lenient` parameter is accepted but — exactly as
in the source — never consulted: every row error is a hard error.  A captured
row with fewer than seven cells makes `_FidelityPosition._make` raise. -/
def _parsePositions (rows : List (List String)) (lenient : Bool) :
    Except ParseError (List Position) :=
  let sections := parseSectionsForCSV rows [stocksCriterion, bondsCriterion, optionsCriterion]
  let parsed : Except ParseError (List (List Position)) :=
    sections.mapM (fun sec =>
      sec.rows.mapM (fun r =>
        if r.length = 7 then
          _parseFidelityPosition (_FidelityPosition.make r) (fidelityInstrumentFactory sec.criterionIdx)
        else (Except.error ParseError.malformed : Except ParseError Position)))
  parsed.map List.flatten

/-- `_parseCash`: the cash-row invariant — quantity must equal 1 and price
must not equal 1 (the export's cash columns are known to be offset); a
violation raises the format-changed error, translated as `invariantViolation`.
The checks short-circuit exactly as the Python `or` does. -/
def _parseCash (p : _FidelityPosition) : Except ParseError Cash :=
  match Decimal p.quantity with
  | none => Except.error ParseError.malformed
  | some q =>
    if q ≠ 1 then Except.error ParseError.invariantViolation
    else
      match Decimal p.price with
      | none => Except.error ParseError.malformed
      | some pr =>
        if pr = 1 then Except.error ParseError.invariantViolation
        else
          match Decimal p.beginningValue with
          | none => Except.error ParseError.malformed
          | some b => Except.ok { currency := Currency.USD, quantity := b }

/-- The rows of the positions file viewed as position records for the balance
scan: every row with at least seven cells, truncated to its first seven. -/
def balancePositions (rows : List (List String)) : List _FidelityPosition :=
  (rows.filter (fun r => 7 ≤ r.length)).map _FidelityPosition.make

/-- The subset of `balancePositions` whose symbol is the literal CASH. -/
def cashPositions (rows : List (List String)) : List _FidelityPosition :=
  (balancePositions rows).filter (fun p => p.symbol == "CASH")

/-- `_parseBalance`: lenient-parse every CASH row through `_parseCash` and
reduce the results by addition starting from USD 0, keyed under USD. -/
def _parseBalance (rows : List (List String)) (lenient : Bool) :
    Except ParseError AccountBalance :=
  match lenientParse _parseCash lenient (cashPositions rows) with
  | Except.error e => Except.error e
  | Except.ok cs =>
    Except.ok { cash := [(Currency.USD,
      cs.foldl Cash.add { currency := Currency.USD, quantity := 0 })] }

/-- The 17-column transaction row (`_FidelityTransaction`). -/
structure _FidelityTransaction where
  date : String
  account : String
  action : String
  symbol : String
  description : String
  securityType : String
  exchangeQuantity : String
  exchangeCurrency : String
  quantity : String
  currency : String
  price : String
  exchangeRate : String
  commission : String
  fees : String
  accruedInterest : String
  amount : String
  settlementDate : String
deriving DecidableEq

/-- `_FidelityTransaction._make(r)`: requires exactly seventeen cells; callers
guard the length. -/
def _FidelityTransaction.make (r : List String) : _FidelityTransaction :=
  { date := r.getD 0 "", account := r.getD 1 "", action := r.getD 2 "",
    symbol := r.getD 3 "", description := r.getD 4 "", securityType := r.getD 5 "",
    exchangeQuantity := r.getD 6 "", exchangeCurrency := r.getD 7 "",
    quantity := r.getD 8 "", currency := r.getD 9 "", price := r.getD 10 "",
    exchangeRate := r.getD 11 "", commission := r.getD 12 "", fees := r.getD 13 "",
    accruedInterest := r.getD 14 "", amount := r.getD 15 "",
    settlementDate := r.getD 16 "" }

/-- The core of the transaction-option-symbol regex
`^-(underlying:[A-Z]+)(date:\d{6})(putCall:C|P)(strike:[0-9.]+)$`.  The
uppercase run is maximal; shrinking it would place a letter where six digits
are required, so the greedy match is the only candidate. -/
def optionTransactionCore (cs : List Char) :
    Option (List Char × List Char × Char × List Char) :=
  match cs with
  | '-' :: rest =>
    let underlying := rest.takeWhile isUpperAZ
    if underlying.isEmpty then none
    else
      let r1 := rest.drop underlying.length
      let dateChars := r1.take 6
      if dateChars.length = 6 && dateChars.all Char.isDigit then
        match r1.drop 6 with
        | pc :: strikeChars =>
          if (pc == 'C' || pc == 'P') && !strikeChars.isEmpty
              && strikeChars.all (fun c => c.isDigit || c == '.') then
            some (underlying, dateChars, pc, strikeChars)
          else none
        | [] => none
      else none
  | _ => none

/-- `_parseOptionTransaction`: parse a transaction option symbol; the date is
decoded with `%y%m%d` and the strike is a plain decimal (not scaled). -/
def _parseOptionTransaction (symbol : String) (currency : Currency) :
    Except ParseError Instrument :=
  match dollarAnchored optionTransactionCore symbol.toList with
  | none => Except.error ParseError.malformed
  | some (underlying, dateChars, pc, strikeChars) => do
    let optionType := if pc = 'P' then OptionType.PUT else OptionType.CALL
    let expiration ← ofOption (parseYYMMDD dateChars) ParseError.malformed
    let strike ← ofOption (Decimal (String.mk strikeChars)) ParseError.malformed
    Except.ok (Instrument.option (String.mk underlying) currency expiration optionType strike)

/-- `re.search(r"[0-9]+(C|P)[0-9]+$", symbol)`: the symbol ends (up to the `$`
newline rule) in one or more digits, preceded by `C` or `P`, preceded by at
least one digit. -/
def cpOptionSuffix (cs : List Char) : Bool :=
  let r := cs.reverse
  let ds := r.takeWhile Char.isDigit
  !ds.isEmpty &&
    (match r.drop ds.length with
     | c :: d :: _ => (c == 'C' || c == 'P') && d.isDigit
     | _ => false)

/-- `_guessInstrumentFromSymbol`: an option-looking suffix parses as an
option; otherwise a valid bond symbol is a bond; otherwise a stock. -/
def _guessInstrumentFromSymbol (symbol : String) (currency : Currency) :
    Except ParseError Instrument :=
  let cs := symbol.toList
  if cpOptionSuffix cs || (cs.getLast? = some '\x0a' && cpOptionSuffix cs.dropLast) then
    _parseOptionTransaction symbol currency
  else if validBondSymbol symbol then mkBond symbol currency true
  else Except.ok (Instrument.stock symbol currency)

/-- `_parseFidelityTransactionDate`: `strptime` with `%m/%d/%Y` — one or two
digit month and day, four-digit year, slash separated, validated. -/
def _parseFidelityTransactionDate (datestr : String) : Option Date :=
  match datestr.splitOn ("/") with
  | [ms, ds, ys] =>
    let mc := ms.toList
    let dc := ds.toList
    let yc := ys.toList
    if 1 ≤ mc.length && mc.length ≤ 2 && mc.all Char.isDigit
        && 1 ≤ dc.length && dc.length ≤ 2 && dc.all Char.isDigit
        && yc.length = 4 && yc.all Char.isDigit then
      mkValidDate (digitsToNat yc) (digitsToNat mc) (digitsToNat dc)
    else none
  | _ => none

/-- The `if t.commission: totalFees += Decimal(t.commission)` pattern: an
empty field contributes zero, a non-empty one is parsed (and may raise). -/
def optionalDecimal (field : String) : Except ParseError ℚ :=
  if field = "" then pure (0 : ℚ)
  else ofOption (Decimal field) ParseError.malformed

/-- The amount statement of `_forceParseFidelityTransaction`: zero when the
field is empty, and otherwise the parsed amount plus the total fees. -/
def amountPart (field : String) (totalFees : ℚ) : Except ParseError ℚ :=
  if field = "" then pure (0 : ℚ)
  else (ofOption (Decimal field) ParseError.malformed).map (fun a => a + totalFees)

/-- `_forceParseFidelityTransaction`: total fees are the commission field plus
the fees field, each contributing only when the field is non-empty; the amount
is zero when the amount field is empty, and otherwise the parsed amount plus
the total fees; both legs are denominated in the record's currency. -/
def _forceParseFidelityTransaction (t : _FidelityTransaction) (flags : TradeFlags) :
    Except ParseError Trade := do
  let quantity ← ofOption (Decimal t.quantity) ParseError.malformed
  let commissionPart ← optionalDecimal t.commission
  let feesPart ← optionalDecimal t.fees
  let totalFees := 0 + commissionPart + feesPart
  let amount ← amountPart t.amount totalFees
  let currency ← ofOption (Currency.fromCode t.currency) ParseError.malformed
  let date ← ofOption (_parseFidelityTransactionDate t.date) ParseError.malformed
  let instrument ← _guessInstrumentFromSymbol t.symbol currency
  Except.ok { date := date, instrument := instrument, quantity := quantity,
              amount := { currency := currency, quantity := amount },
              fees := { currency := currency, quantity := totalFees },
              flags := flags }

/-- Python's `str.startswith`. -/
def strStartsWith (s p : String) : Bool :=
  p.toList.isPrefixOf s.toList

/-- `_parseFidelityTransaction`: the per-record action dispatch.  The trailing
`if not flags` test is falsy both for absent flags and for an all-clear flag
set, exactly as Python truthiness has it. -/
def _parseFidelityTransaction (t : _FidelityTransaction) :
    Except ParseError (Option Activity) :=
  if t.action = "DIVIDEND RECEIVED" then do
    let date ← ofOption (_parseFidelityTransactionDate t.date) ParseError.malformed
    let currency ← ofOption (Currency.fromCode t.currency) ParseError.malformed
    let amt ← ofOption (Decimal t.amount) ParseError.malformed
    Except.ok (some (Activity.payment
      { date := date, instrument := some (Instrument.stock t.symbol currency),
        proceeds := { currency := currency, quantity := amt } }))
  else if t.action = "INTEREST EARNED" then do
    let date ← ofOption (_parseFidelityTransactionDate t.date) ParseError.malformed
    let currency ← ofOption (Currency.fromCode t.currency) ParseError.malformed
    let amt ← ofOption (Decimal t.amount) ParseError.malformed
    Except.ok (some (Activity.payment
      { date := date, instrument := none,
        proceeds := { currency := currency, quantity := amt } }))
  else
    let flags : Option TradeFlags :=
      if strStartsWith t.action ("YOU BOUGHT") then some TradeFlags.OPEN
      else if strStartsWith t.action ("YOU SOLD") then some TradeFlags.CLOSE
      else if strStartsWith t.action ("REINVESTMENT") then
        some (TradeFlags.OPEN.union TradeFlags.DRIP)
      else none
    if flags.getD TradeFlags.NONE = TradeFlags.NONE then Except.ok none
    else (_forceParseFidelityTransaction t (flags.getD TradeFlags.NONE)).map Activity.trade |>.map some

def transactionsCriterion : CSVSectionCriterion :=
  { startSectionRowMatch := ["Run Date", "Account", "Action"],
    endSectionRowMatch := [],
    rowFilter := fun r => if 17 ≤ r.length then some r else none }

/-- `_parseTransactions`: slice the transaction section, build the records and
lenient-parse them, dropping records the dispatch mapped to nothing.  A kept
row with more than seventeen cells makes `_FidelityTransaction._make` raise
regardless of leniency; record construction is hoisted before the transform
pass here (the source interleaves the two lazily, which can only change which
of several errors surfaces first, never success results). -/
def _parseTransactions (rows : List (List String)) (lenient : Bool) :
    Except ParseError (List Activity) :=
  match parseSectionsForCSV rows [transactionsCriterion] with
  | [] => Except.ok []
  | sec :: _ =>
    let records : Except ParseError (List _FidelityTransaction) :=
      sec.rows.mapM (fun r =>
        if r.length = 17 then Except.ok (_FidelityTransaction.make r)
        else Except.error ParseError.malformed)
    match records with
    | Except.error e => Except.error e
    | Except.ok recs =>
      (lenientParse _parseFidelityTransaction lenient recs).map (fun l => l.filterMap id)

/-- The state of a `FidelityAccount`: the configured sources (file contents
standing in for the configured paths), the leniency flag, and the three
memoization fields, `None` before first use. -/
structure FidelityAccount where
  positionsFile : Option (List (List String))
  transactionsFile : Option (List (List String))
  lenient : Bool
  cachePositions : Option (List Position)
  cacheActivity : Option (List Activity)
  cacheBalance : Option AccountBalance
deriving DecidableEq

/-- `FidelityAccount.__init__`: caches start out unset. -/
def FidelityAccount.init (positionsFile transactionsFile : Option (List (List String)))
    (lenient : Bool) : FidelityAccount :=
  { positionsFile := positionsFile, transactionsFile := transactionsFile,
    lenient := lenient, cachePositions := none, cacheActivity := none,
    cacheBalance := none }

/-- Python truthiness of an optional sequence: `None` and the empty sequence
are both falsy. -/
def pyTruthySeq {α : Type} : Option (List α) → Bool
  | none => false
  | some l => !l.isEmpty

/-- Modelled from the spec: truthiness of an optional `AccountBalance`.  The
model package defines `AccountBalance` as a plain value object, so any
constructed instance is truthy (Python default object truthiness). -/
def pyTruthyBalance : Option AccountBalance → Bool :=
  Option.isSome

/-- `FidelityAccount.positions()`: one call, returning the result, the
post-call account state, and whether the call ran the file parse. -/
def FidelityAccount.positionsCall (acc : FidelityAccount) :
    Except ParseError (List Position × FidelityAccount × Bool) :=
  match acc.positionsFile with
  | none => Except.ok ([], acc, false)
  | some f =>
    if pyTruthySeq acc.cachePositions then
      Except.ok (acc.cachePositions.getD [], acc, false)
    else
      match _parsePositions f acc.lenient with
      | Except.error e => Except.error e
      | Except.ok ps =>
        Except.ok (ps, { acc with cachePositions := some ps }, true)

/-- `FidelityAccount.activity()`: one call, instrumented like
`positionsCall`. -/
def FidelityAccount.activityCall (acc : FidelityAccount) :
    Except ParseError (List Activity × FidelityAccount × Bool) :=
  match acc.transactionsFile with
  | none => Except.ok ([], acc, false)
  | some f =>
    if pyTruthySeq acc.cacheActivity then
      Except.ok (acc.cacheActivity.getD [], acc, false)
    else
      match _parseTransactions f acc.lenient with
      | Except.error e => Except.error e
      | Except.ok as =>
        Except.ok (as, { acc with cacheActivity := some as }, true)

/-- `FidelityAccount.balance()`: one call, instrumented like
`positionsCall`. -/
def FidelityAccount.balanceCall (acc : FidelityAccount) :
    Except ParseError (AccountBalance × FidelityAccount × Bool) :=
  match acc.positionsFile with
  | none => Except.ok ({ cash := [] }, acc, false)
  | some f =>
    if pyTruthyBalance acc.cacheBalance then
      Except.ok (acc.cacheBalance.getD { cash := [] }, acc, false)
    else
      match _parseBalance f acc.lenient with
      | Except.error e => Except.error e
      | Except.ok b =>
        Except.ok (b, { acc with cacheBalance := some b }, true)

/- ## Interactive Brokers importer (`ibkr.py`) -/

/-- `str.rstrip()`: drop trailing whitespace characters. -/
def rstrip (cs : List Char) : List Char :=
  ((cs.reverse.dropWhile Char.isWhitespace)).reverse

/-- The core of the OCC option-symbol regex
`^(underlying:.{6})(date:\d{6})(putCall:P|C)(strike:\d{8})$`: a 21-character
match with fixed-width groups (`.` does not match a newline). -/
def occCore (cs : List Char) :
    Option (List Char × List Char × Char × List Char) :=
  if cs.length = 21 then
    let underlying := cs.take 6
    let dateChars := (cs.drop 6).take 6
    let strikeChars := cs.drop 13
    match cs.drop 12 with
    | pc :: _ =>
      if underlying.all (fun c => c ≠ '\x0a') && dateChars.all Char.isDigit
          && (pc == 'P' || pc == 'C') && strikeChars.all Char.isDigit then
        some (underlying, dateChars, pc, strikeChars)
      else none
    | [] => none
  else none

/-- `parseOption`: parse an OCC-format option symbol — fixed six-character
underlying (right-trimmed of padding), `%y%m%d` expiration, put/call flag, and
an eight-digit strike scaled by 1000. -/
def parseOption (symbol : String) (currency : Currency) :
    Except ParseError Instrument :=
  match dollarAnchored occCore symbol.toList with
  | none => Except.error ParseError.malformed
  | some (underlying, dateChars, pc, strikeChars) => do
    let optionType := if pc = 'P' then OptionType.PUT else OptionType.CALL
    let expiration ← ofOption (parseYYMMDD dateChars) ParseError.malformed
    Except.ok (Instrument.option (String.mk (rstrip underlying)) currency
      expiration optionType ((digitsToNat strikeChars : ℚ) / 1000))

/-- The trade-confirmation record (`IBTradeConfirm`): a fixed set of
string-typed fields. -/
structure IBTradeConfirm where
  accountId : String
  acctAlias : String
  model : String
  currency : String
  assetCategory : String
  symbol : String
  description : String
  conid : String
  securityID : String
  securityIDType : String
  cusip : String
  isin : String
  listingExchange : String
  underlyingConid : String
  underlyingSymbol : String
  underlyingSecurityID : String
  underlyingListingExchange : String
  issuer : String
  multiplier : String
  strike : String
  expiry : String
  putCall : String
  principalAdjustFactor : String
  transactionType : String
  tradeID : String
  orderID : String
  execID : String
  brokerageOrderID : String
  orderReference : String
  volatilityOrderLink : String
  clearingFirmID : String
  origTradePrice : String
  origTradeDate : String
  origTradeID : String
  orderTime : String
  dateTime : String
  reportDate : String
  settleDate : String
  tradeDate : String
  exchange : String
  buySell : String
  quantity : String
  price : String
  amount : String
  proceeds : String
  commission : String
  brokerExecutionCommission : String
  brokerClearingCommission : String
  thirdPartyExecutionCommission : String
  thirdPartyClearingCommission : String
  thirdPartyRegulatoryCommission : String
  otherCommission : String
  commissionCurrency : String
  tax : String
  code : String
  orderType : String
  levelOfDetail : String
  traderID : String
  isAPIOrder : String
  allocatedTo : String
  accruedInt : String
deriving DecidableEq

/-- A record with every field empty, for building concrete examples. -/
def emptyConfirm : IBTradeConfirm :=
  { accountId := "", acctAlias := "", model := "", currency := "",
    assetCategory := "", symbol := "", description := "", conid := "",
    securityID := "", securityIDType := "", cusip := "", isin := "",
    listingExchange := "", underlyingConid := "", underlyingSymbol := "",
    underlyingSecurityID := "", underlyingListingExchange := "", issuer := "",
    multiplier := "", strike := "", expiry := "", putCall := "",
    principalAdjustFactor := "", transactionType := "", tradeID := "",
    orderID := "", execID := "", brokerageOrderID := "", orderReference := "",
    volatilityOrderLink := "", clearingFirmID := "", origTradePrice := "",
    origTradeDate := "", origTradeID := "", orderTime := "", dateTime := "",
    reportDate := "", settleDate := "", tradeDate := "", exchange := "",
    buySell := "", quantity := "", price := "", amount := "", proceeds := "",
    commission := "", brokerExecutionCommission := "",
    brokerClearingCommission := "", thirdPartyExecutionCommission := "",
    thirdPartyClearingCommission := "", thirdPartyRegulatoryCommission := "",
    otherCommission := "", commissionCurrency := "", tax := "", code := "",
    orderType := "", levelOfDetail := "", traderID := "", isAPIOrder := "",
    allocatedTo := "", accruedInt := "" }

/-- `parseFutureOptionTrade`: instrument for the futures-option asset
category; an unexpected put/call indicator is a hard error. -/
def parseFutureOptionTrade (trade : IBTradeConfirm) : Except ParseError Instrument := do
  let optionType ←
    if trade.putCall = "C" then pure OptionType.CALL
    else if trade.putCall = "P" then pure OptionType.PUT
    else Except.error ParseError.unknownCode
  let currency ← ofOption (Currency.fromCode trade.currency) ParseError.malformed
  let expiration ← ofOption (parseYYYYMMDD trade.expiry) ParseError.malformed
  let strike ← ofOption (Decimal trade.strike) ParseError.malformed
  Except.ok (Instrument.futureOption trade.symbol currency trade.underlyingSymbol
    optionType expiration strike)

/-- The `flagsByCode` table. -/
def flagsByCode : String → Option TradeFlags
  | "O" => some TradeFlags.OPEN
  | "C" => some TradeFlags.CLOSE
  | "A" => some TradeFlags.ASSIGNED_OR_EXERCISED
  | "Ex" => some TradeFlags.ASSIGNED_OR_EXERCISED
  | "Ep" => some TradeFlags.EXPIRED
  | "R" => some TradeFlags.DRIP
  | "P" => some TradeFlags.NONE
  | "D" => some TradeFlags.NONE
  | _ => none

/-- The code-decoding loop of `parseTradeConfirm`: empty pieces are skipped,
known codes are unioned in, an unknown code raises `KeyError`. -/
def decodeCodes (fl : TradeFlags) : List String → Except ParseError TradeFlags
  | [] => Except.ok fl
  | c :: rest =>
    if c = "" then decodeCodes fl rest
    else
      match flagsByCode c with
      | some f => decodeCodes (fl.union f) rest
      | none => Except.error ParseError.unknownCode

/-- The `instrumentsByTag` dispatch of `parseTradeConfirm`. -/
def instrumentForConfirm (t : IBTradeConfirm) : Except ParseError Instrument :=
  match t.assetCategory with
  | "STK" => do
    let currency ← ofOption (Currency.fromCode t.currency) ParseError.malformed
    Except.ok (Instrument.stock t.symbol currency)
  | "BOND" => do
    let currency ← ofOption (Currency.fromCode t.currency) ParseError.malformed
    mkBond t.symbol currency false
  | "OPT" => do
    let currency ← ofOption (Currency.fromCode t.currency) ParseError.malformed
    parseOption t.symbol currency
  | "FUT" => do
    let currency ← ofOption (Currency.fromCode t.currency) ParseError.malformed
    Except.ok (Instrument.future t.symbol currency)
  | "CASH" => do
    let currency ← ofOption (Currency.fromCode t.currency) ParseError.malformed
    Except.ok (Instrument.forex t.symbol currency)
  | "FOP" => parseFutureOptionTrade t
  | _ => Except.error ParseError.unsupportedInstrument

/-- `parseTradeConfirm`: flags are decoded first from the semicolon-separated
code field, open/close is inferred from the buy/sell side when neither was
set, and the `Trade` is assembled — amount from the proceeds field in the
trade's currency, fees as the negated sum of commission and tax in the
commission currency. -/
def parseTradeConfirm (trade : IBTradeConfirm) : Except ParseError Trade := do
  let decoded ← decodeCodes TradeFlags.NONE (trade.code.splitOn (";"))
  let flags :=
    if decoded.opening = false && decoded.closing = false then
      if trade.buySell = "BUY" then decoded.union TradeFlags.OPEN
      else decoded.union TradeFlags.CLOSE
    else decoded
  let date ← ofOption (parseYYYYMMDD trade.tradeDate) ParseError.malformed
  let instrument ← instrumentForConfirm trade
  let quantity ← ofOption (Decimal trade.quantity) ParseError.malformed
  let currency ← ofOption (Currency.fromCode trade.currency) ParseError.malformed
  let proceeds ← ofOption (Decimal trade.proceeds) ParseError.malformed
  let commissionCurrency ←
    ofOption (Currency.fromCode trade.commissionCurrency) ParseError.malformed
  let commission ← ofOption (Decimal trade.commission) ParseError.malformed
  let tax ← ofOption (Decimal trade.tax) ParseError.malformed
  Except.ok { date := date, instrument := instrument, quantity := quantity,
              amount := { currency := currency, quantity := proceeds },
              fees := { currency := commissionCurrency,
                        quantity := -(commission + tax) },
              flags := flags }

/- ## Live quotes (`IBDataProvider.fetchQuote`) -/

/-- A price field of a live ticker snapshot, abstracting the IEEE float the
API client reports: absent, a non-finite sentinel, or a finite value (no
floating-point arithmetic is performed on it). -/
inductive TickerValue
  | absent
  | nan
  | posInf
  | negInf
  | finite (q : ℚ)
deriving DecidableEq

/-- Python truthiness of the reported value: `None` and `0.0` are falsy; the
non-finite sentinels are truthy. -/
def TickerValue.truthy : TickerValue → Bool
  | TickerValue.absent => false
  | TickerValue.nan => true
  | TickerValue.posInf => true
  | TickerValue.negInf => true
  | TickerValue.finite q => q ≠ 0

/-- `math.isfinite` on the reported value (never called on `None`: the
truthiness test short-circuits first). -/
def TickerValue.isfinite : TickerValue → Bool
  | TickerValue.finite _ => true
  | _ => false

/-- `Decimal(value)` for a finite reported value; only consulted after the
finiteness test holds. -/
def TickerValue.val : TickerValue → ℚ
  | TickerValue.finite q => q
  | _ => 0

/-- One reported ticker snapshot. -/
structure Ticker where
  bid : TickerValue
  ask : TickerValue
  last : TickerValue
deriving DecidableEq

/-- One quote leg of `fetchQuote`: included only when the reported value is
truthy and finite. -/
def tickerLeg (currency : Currency) (v : TickerValue) : Option Cash :=
  if v.truthy && v.isfinite then some { currency := currency, quantity := v.val }
  else none

/-- The quote-construction tail of `IBDataProvider.fetchQuote`, after the
contract has been qualified and the ticker snapshot received: each of
bid/ask/last becomes a leg via `tickerLeg` in the instrument's currency. -/
def quoteForTicker (currency : Currency) (ticker : Ticker) : Quote :=
  { bid := tickerLeg currency ticker.bid,
    ask := tickerLeg currency ticker.ask,
    last := tickerLeg currency ticker.last }

/- ## Claim-side definitions and concrete inputs -/

/-- The trade-flag decoding rule as the specification words it: the union,
over the semicolon-separated codes, of the table's flags (a piece outside the
table contributing nothing — only reached when decoding succeeded), then
open/close inferred from the buy/sell side when neither was decoded. -/
def specTradeFlags (code buySell : String) : TradeFlags :=
  let decoded := (code.splitOn (";")).foldl
    (fun fl c => fl.union ((flagsByCode c).getD TradeFlags.NONE)) TradeFlags.NONE
  if decoded.opening = false && decoded.closing = false then
    if buySell = "BUY" then decoded.union TradeFlags.OPEN
    else decoded.union TradeFlags.CLOSE
  else decoded

/-- The syntactic OCC symbol shape: exactly 21 characters — six underlying
characters (none a newline, which `.` cannot match), six digits, a `P` or
`C`, eight digits. -/
def occSyntacticShape (cs : List Char) : Bool :=
  cs.length = 21 && (cs.take 6).all (fun c => c ≠ '\x0a')
    && ((cs.drop 6).take 6).all Char.isDigit
    && ((cs.drop 12).take 1).all (fun c => c == 'P' || c == 'C')
    && (cs.drop 13).all Char.isDigit

/-- The symbol shape named by the OCC claim: the syntactic shape with the six
date digits encoding a valid `yymmdd` date. -/
def occShape (s : String) : Bool :=
  occSyntacticShape s.toList && (parseYYMMDD ((s.toList.drop 6).take 6)).isSome

/-- `occShape` up to the `$` anchor's tolerance of one final newline. -/
def occShapeNL (s : String) : Bool :=
  occShape s ||
    (s.toList.getLast? == some '\x0a'
      && (occSyntacticShape s.toList.dropLast
          && (parseYYMMDD ((s.toList.dropLast.drop 6).take 6)).isSome))

/-- The digit character for `k < 10`. -/
def digitChar (k : Nat) : Char :=
  Char.ofNat ('0'.toNat + k)

/-- A number below 100 as two zero-padded digit characters. -/
def pad2 (n : Nat) : List Char :=
  [digitChar (n / 10 % 10), digitChar (n % 10)]

/-- A number below 10^8 as eight zero-padded digit characters. -/
def pad8 (n : Nat) : List Char :=
  [digitChar (n / 10000000 % 10), digitChar (n / 1000000 % 10),
   digitChar (n / 100000 % 10), digitChar (n / 10000 % 10),
   digitChar (n / 1000 % 10), digitChar (n / 100 % 10),
   digitChar (n / 10 % 10), digitChar (n % 10)]

/-- A date in `yymmdd` form (two-digit year). -/
def formatYYMMDD (d : Date) : List Char :=
  pad2 (d.year % 100) ++ pad2 d.month ++ pad2 d.day

def putCallChar : OptionType → Char
  | OptionType.PUT => 'P'
  | OptionType.CALL => 'C'

/-- The OCC symbol built from a six-character underlying field, a `yymmdd`
date, a put/call character and an eight-digit scaled strike, as the claim
describes it. -/
def buildOccSymbol (u : List Char) (d : Date) (ot : OptionType) (n : Nat) : String :=
  String.mk (u ++ formatYYMMDD d ++ [putCallChar ot] ++ pad8 n)

/-- The sum the balance claim names: over every row of the file with at least
seven cells and first cell CASH, the parsed beginning-value field. -/
def cashRowSum (rows : List (List String)) : ℚ :=
  (cashPositions rows).foldl (fun q p => q + ((Decimal p.beginningValue).getD 0)) 0

/-- A CASH row satisfying the parse-time invariant with all three consulted
fields parseable. -/
def goodCashRow (p : _FidelityPosition) : Bool :=
  Decimal p.quantity == some 1
    && (match Decimal p.price with
        | some pr => decide (pr ≠ 1)
        | none => false)
    && (Decimal p.beginningValue).isSome

/-- A transaction record with every field empty, for building examples. -/
def emptyFidelityTransaction : _FidelityTransaction :=
  { date := "", account := "", action := "", symbol := "", description := "",
    securityType := "", exchangeQuantity := "", exchangeCurrency := "",
    quantity := "", currency := "", price := "", exchangeRate := "",
    commission := "", fees := "", accruedInterest := "", amount := "",
    settlementDate := "" }

/-- A positions row violating the cash invariant: quantity 2 instead of 1. -/
def c1Row : List String :=
  ["CASH", "Cash", "2", "0.5", "100", "100", "0"]

def c1Rows : List (List String) :=
  [["Unrelated"], c1Row]

/-- A fresh account over an empty positions file. -/
def c2Account : FidelityAccount :=
  FidelityAccount.init (some []) none false

/-- The account state after the first `positions()` call on `c2Account`. -/
def c2AccountCached : FidelityAccount :=
  { c2Account with cachePositions := some [] }

/-- A bought-trade record with a commission but an empty amount field. -/
def c3Record : _FidelityTransaction :=
  { emptyFidelityTransaction with
      date := "01/02/2020", action := "YOU BOUGHT 100 AAPL", symbol := "AAPL",
      quantity := "100", currency := "USD", commission := "4.95" }

/-- The trade the importer produces for `c3Record`. -/
def c3Trade : Trade :=
  { date := { year := 2020, month := 1, day := 2 },
    instrument := Instrument.stock ("AAPL") Currency.USD,
    quantity := 100,
    amount := { currency := Currency.USD, quantity := 0 },
    fees := { currency := Currency.USD, quantity := 99 / 20 },
    flags := TradeFlags.OPEN }

/-- A bought-trade record with commission, fees and amount all present. -/
def c3WitnessRecord : _FidelityTransaction :=
  { emptyFidelityTransaction with
      date := "01/02/2020", action := "YOU BOUGHT 10 AAPL", symbol := "AAPL",
      quantity := "10", currency := "USD", commission := "1", fees := "0.5",
      amount := "10" }

/-- The trade the importer produces for `c3WitnessRecord`. -/
def c3WitnessTrade : Trade :=
  { date := { year := 2020, month := 1, day := 2 },
    instrument := Instrument.stock ("AAPL") Currency.USD,
    quantity := 10,
    amount := { currency := Currency.USD, quantity := 23 / 2 },
    fees := { currency := Currency.USD, quantity := 3 / 2 },
    flags := TradeFlags.OPEN }

/-- A trade confirm carrying an unrecognized code. -/
def c4ErrRecord : IBTradeConfirm :=
  { emptyConfirm with code := "Z" }

/-- A fully parseable trade confirm with codes C and Ep. -/
def c4OkRecord : IBTradeConfirm :=
  { emptyConfirm with
      assetCategory := "STK", symbol := "AAPL", currency := "USD",
      tradeDate := "20200101", quantity := "1", proceeds := "100",
      commission := "1", commissionCurrency := "USD", tax := "0",
      code := "C;Ep", buySell := "" }

/-- The trade `parseTradeConfirm` produces for `c4OkRecord`. -/
def c4OkTrade : Trade :=
  { date := { year := 2020, month := 1, day := 1 },
    instrument := Instrument.stock ("AAPL") Currency.USD,
    quantity := 1,
    amount := { currency := Currency.USD, quantity := 100 },
    fees := { currency := Currency.USD, quantity := -1 },
    flags := TradeFlags.CLOSE.union TradeFlags.EXPIRED }

/-- An OCC symbol of the documented shape followed by one newline. -/
def c5CexSymbol : String :=
  "AAPL  200117C00250000\x0a"

/-- What `parseOption` recovers from `c5CexSymbol`. -/
def c5CexOption : Instrument :=
  Instrument.option ("AAPL") Currency.USD
    { year := 2020, month := 1, day := 17 } OptionType.CALL 250

/-- A fully parseable trade confirm with commission 1.00 and tax 0.25. -/
def c6Record : IBTradeConfirm :=
  { emptyConfirm with
      assetCategory := "STK", symbol := "AAPL", currency := "USD",
      tradeDate := "20200101", quantity := "2", proceeds := "-50",
      commission := "1.00", commissionCurrency := "USD", tax := "0.25",
      code := "O", buySell := "BUY" }

/-- The trade `parseTradeConfirm` produces for `c6Record`. -/
def c6Trade : Trade :=
  { date := { year := 2020, month := 1, day := 1 },
    instrument := Instrument.stock ("AAPL") Currency.USD,
    quantity := 2,
    amount := { currency := Currency.USD, quantity := -50 },
    fees := { currency := Currency.USD, quantity := -(5 / 4) },
    flags := TradeFlags.OPEN }

/-- A dividend transaction record. -/
def c7Record : _FidelityTransaction :=
  { emptyFidelityTransaction with
      date := "03/04/2019", action := "DIVIDEND RECEIVED", symbol := "AAPL",
      currency := "USD", amount := "7.25" }

/-- A ticker with a finite zero bid, finite ask and non-finite last. -/
def c8Ticker : Ticker :=
  { bid := TickerValue.finite 0, ask := TickerValue.finite 1,
    last := TickerValue.nan }

/-- A ticker with nonzero finite bid and ask and a non-finite last. -/
def c8WitnessTicker : Ticker :=
  { bid := TickerValue.finite 2, ask := TickerValue.finite 3,
    last := TickerValue.nan }

/-- A ticker with a zero bid, a nonzero ask and an absent last. -/
def c9Ticker : Ticker :=
  { bid := TickerValue.finite 0, ask := TickerValue.finite 5,
    last := TickerValue.absent }

/-- A positions file with two well-formed CASH rows, a short row and an
unrelated row. -/
def c10Rows : List (List String) :=
  [["Header"],
   ["CASH", "Cash", "1", "0.5", "100.25", "100.25", "0"],
   ["short"],
   ["AAPL", "Apple", "10", "200", "2000", "2000", "1500"],
   ["CASH", "Cash", "1", "0.5", "49.75", "49.75", "0"]]

/- ## General lemmas about the embedded helpers -/

theorem lenientParse_nil {α β : Type} (tf : α → Except ParseError β) (lenient : Bool) :
    lenientParse tf lenient [] = Except.ok [] := rfl

theorem lenientParse_cons {α β : Type} (tf : α → Except ParseError β) (lenient : Bool)
    (x : α) (xs : List α) :
    lenientParse tf lenient (x :: xs) =
      match tf x with
      | Except.ok y =>
        match lenientParse tf lenient xs with
        | Except.ok ys => Except.ok (y :: ys)
        | Except.error e => Except.error e
      | Except.error e =>
        if lenient = true then
          if e = ParseError.invariantViolation then Except.error e
          else lenientParse tf lenient xs
        else Except.error e := rfl

theorem lenientParse_cons_ok {α β : Type} {tf : α → Except ParseError β} {lenient : Bool}
    {x : α} {xs : List α} {y : β} (htx : tf x = Except.ok y) :
    lenientParse tf lenient (x :: xs) =
      match lenientParse tf lenient xs with
      | Except.ok ys => Except.ok (y :: ys)
      | Except.error e => Except.error e := by
  rw [lenientParse_cons, htx]

theorem lenientParse_cons_error {α β : Type} {tf : α → Except ParseError β} {lenient : Bool}
    {x : α} {xs : List α} {e' : ParseError} (htx : tf x = Except.error e') :
    lenientParse tf lenient (x :: xs) =
      if lenient = true then
        if e' = ParseError.invariantViolation then Except.error e'
        else lenientParse tf lenient xs
      else Except.error e' := by
  rw [lenientParse_cons, htx]

/-- A record whose transform hits the invariant violation makes the whole
pass fail, in either mode. -/
theorem lenientParse_error_of_mem {α β : Type} (tf : α → Except ParseError β)
    (lenient : Bool) (l : List α) (x : α) (hx : x ∈ l)
    (he : tf x = Except.error ParseError.invariantViolation) :
    ∃ e, lenientParse tf lenient l = Except.error e := by
  induction l with
  | nil => cases hx
  | cons h t ih =>
    rcases List.mem_cons.mp hx with hxh | hxt
    · subst hxh
      rw [lenientParse_cons_error he]
      cases lenient <;> simp
    · cases hth : tf h with
      | ok y =>
        obtain ⟨e, hrec⟩ := ih hxt
        rw [lenientParse_cons_ok hth, hrec]
        exact ⟨e, rfl⟩
      | error e' =>
        obtain ⟨e, hrec⟩ := ih hxt
        rw [lenientParse_cons_error hth]
        cases lenient with
        | false => exact ⟨e', rfl⟩
        | true =>
          by_cases hinv : e' = ParseError.invariantViolation
          · rw [if_pos rfl, if_pos hinv]
            exact ⟨e', rfl⟩
          · rw [if_pos rfl, if_neg hinv]
            exact ⟨e, hrec⟩

/-- In lenient mode the only error a pass can end with is the invariant
violation: every other per-record error is skipped. -/
theorem lenientParse_lenient_error {α β : Type} (tf : α → Except ParseError β)
    (l : List α) (e : ParseError)
    (h : lenientParse tf true l = Except.error e) :
    e = ParseError.invariantViolation := by
  induction l with
  | nil => rw [lenientParse_nil] at h; cases h
  | cons x xs ih =>
    cases htx : tf x with
    | ok y =>
      rw [lenientParse_cons_ok htx] at h
      cases hrec : lenientParse tf true xs with
      | ok ys => rw [hrec] at h; cases h
      | error e' =>
        rw [hrec] at h
        cases h
        exact ih hrec
    | error e' =>
      rw [lenientParse_cons_error htx] at h
      by_cases hinv : e' = ParseError.invariantViolation
      · rw [if_pos rfl, if_pos hinv] at h
        cases h
        exact hinv
      · rw [if_pos rfl, if_neg hinv] at h
        exact ih h

/-- When every record transforms successfully, the pass returns the map of
the transforms, in either mode. -/
theorem lenientParse_ok_of_forall {α β : Type} (tf : α → Except ParseError β)
    (g : α → β) (lenient : Bool) (l : List α)
    (h : ∀ x ∈ l, tf x = Except.ok (g x)) :
    lenientParse tf lenient l = Except.ok (l.map g) := by
  induction l with
  | nil => rfl
  | cons x xs ih =>
    rw [lenientParse_cons_ok (h x (List.mem_cons_self x xs)),
      ih (fun y hy => h y (List.mem_cons_of_mem x hy))]
    rfl

/-- A row of at least seven cells whose first cell is CASH appears among the
cash position records scanned by the balance routine. -/
theorem mem_cashPositions {rows : List (List String)} {r : List String}
    (hmem : r ∈ rows) (hlen : 7 ≤ r.length) (hsym : r.getD 0 "" = "CASH") :
    _FidelityPosition.make r ∈ cashPositions rows := by
  unfold cashPositions balancePositions
  refine List.mem_filter.mpr ⟨?_, ?_⟩
  · exact List.mem_map_of_mem _FidelityPosition.make
      (List.mem_filter.mpr ⟨hmem, by simpa using hlen⟩)
  · have hs : (_FidelityPosition.make r).symbol = "CASH" := hsym
    simp [hs]

/-- A CASH record whose quantity is not 1, or whose price is 1, trips the
parse-time invariant. -/
theorem parseCash_invariant {p : _FidelityPosition} {q pr : ℚ}
    (hq : Decimal p.quantity = some q) (hpr : Decimal p.price = some pr)
    (hbad : q ≠ 1 ∨ pr = 1) :
    _parseCash p = Except.error ParseError.invariantViolation := by
  by_cases h1 : q = 1
  · subst h1
    have hpr1 : pr = 1 := by
      rcases hbad with h | h
      · exact absurd rfl h
      · exact h
    simp [_parseCash, hq, hpr, hpr1]
  · simp [_parseCash, hq, h1]

/- ## C1 — cash-row invariant aborts the balance computation -/

/-- C1: in every Fidelity positions file handed to the balance routine, a row
whose symbol is CASH but whose quantity does not parse to 1, or whose price
parses to 1, aborts `_parseBalance` with a parse error in strict and lenient
mode alike, and the error surfaced under lenient mode is the
`InvariantViolation`; no balance is produced. -/
theorem c1_cash_invariant_aborts (rows : List (List String)) (r : List String)
    (q pr : ℚ) (hmem : r ∈ rows) (hlen : 7 ≤ r.length)
    (hsym : r.getD 0 "" = "CASH")
    (hq : Decimal (r.getD 2 "") = some q)
    (hpr : Decimal (r.getD 3 "") = some pr)
    (hbad : q ≠ 1 ∨ pr = 1) :
    (∀ lenient, ∃ e, _parseBalance rows lenient = Except.error e) ∧
    (∀ e, _parseBalance rows true = Except.error e →
      e = ParseError.invariantViolation) := by
  have hcash : _parseCash (_FidelityPosition.make r) =
      Except.error ParseError.invariantViolation :=
    parseCash_invariant hq hpr hbad
  have hmem' := mem_cashPositions hmem hlen hsym
  constructor
  · intro lenient
    obtain ⟨e, he⟩ :=
      lenientParse_error_of_mem _parseCash lenient (cashPositions rows) _ hmem' hcash
    refine ⟨e, ?_⟩
    unfold _parseBalance
    rw [he]
  · intro e he
    unfold _parseBalance at he
    cases hlp : lenientParse _parseCash true (cashPositions rows) with
    | ok cs => rw [hlp] at he; cases he
    | error e' =>
      rw [hlp] at he
      cases he
      exact lenientParse_lenient_error _ _ _ hlp

/-- C1 witness: a concrete file whose CASH row has quantity 2 fails the
balance computation in lenient mode with the invariant violation. -/
theorem c1_cash_invariant_aborts_witness :
    _parseBalance c1Rows true = Except.error ParseError.invariantViolation := by
  obtain ⟨h1, h2⟩ := c1_cash_invariant_aborts c1Rows c1Row 2 (1 / 2)
    (by decide) (by decide) (by decide)
    (by with_unfolding_all decide) (by with_unfolding_all decide)
    (Or.inl (by norm_num))
  obtain ⟨e, he⟩ := h1 true
  rw [h2 e he] at he
  exact he

/- ## C10 — the balance is the sum of the CASH rows' beginning values -/

/-- A well-formed CASH record parses to a USD cash value carrying its
beginning-value field. -/
theorem goodCashRow_parse {p : _FidelityPosition} (h : goodCashRow p = true) :
    _parseCash p = Except.ok
      { currency := Currency.USD, quantity := (Decimal p.beginningValue).getD 0 } := by
  unfold goodCashRow at h
  rw [Bool.and_eq_true, Bool.and_eq_true] at h
  obtain ⟨⟨hq, hprm⟩, hbv⟩ := h
  have hq' : Decimal p.quantity = some 1 := by simpa using hq
  cases hp : Decimal p.price with
  | none => rw [hp] at hprm; cases hprm
  | some pr =>
    rw [hp] at hprm
    have hpr : pr ≠ 1 := by simpa using hprm
    obtain ⟨b, hb⟩ := Option.isSome_iff_exists.mp hbv
    simp [_parseCash, hq', hp, hpr, hb]

/-- Reducing USD cash values by addition tracks the rational sum of the
beginning values. -/
theorem foldl_cash_add (l : List _FidelityPosition) (a : ℚ) :
    (l.map (fun p =>
      ({ currency := Currency.USD,
         quantity := (Decimal p.beginningValue).getD 0 } : Cash))).foldl Cash.add
      { currency := Currency.USD, quantity := a } =
    { currency := Currency.USD,
      quantity := l.foldl (fun q p => q + (Decimal p.beginningValue).getD 0) a } := by
  induction l generalizing a with
  | nil => rfl
  | cons x xs ih =>
    simp only [List.map_cons, List.foldl_cons]
    exact ih (a + (Decimal x.beginningValue).getD 0)

/-- C10: with no positions path `balance()` returns an empty cash mapping;
with one, and every CASH row well formed, it returns exactly the USD key
carrying the sum of the beginning values of every row with at least seven
cells whose first cell is CASH (shorter rows being ignored without error). -/
theorem c10_balance_mapping (positionsFile transactionsFile : Option (List (List String)))
    (lenient : Bool) :
    (positionsFile = none →
      (FidelityAccount.init positionsFile transactionsFile lenient).balanceCall =
        Except.ok ({ cash := [] },
          FidelityAccount.init positionsFile transactionsFile lenient, false)) ∧
    (∀ f, positionsFile = some f →
      (∀ p ∈ cashPositions f, goodCashRow p = true) →
      ∃ s, (FidelityAccount.init positionsFile transactionsFile lenient).balanceCall =
        Except.ok ({ cash := [(Currency.USD,
          { currency := Currency.USD, quantity := cashRowSum f })] }, s, true)) := by
  constructor
  · intro h
    subst h
    rfl
  · intro f h hgood
    subst h
    have hparse : _parseBalance f lenient = Except.ok
        { cash := [(Currency.USD,
          { currency := Currency.USD, quantity := cashRowSum f })] } := by
      unfold _parseBalance
      rw [lenientParse_ok_of_forall _parseCash
        (fun p => { currency := Currency.USD,
                    quantity := (Decimal p.beginningValue).getD 0 }) lenient
        (cashPositions f) (fun p hp => goodCashRow_parse (hgood p hp))]
      show Except.ok ({ cash := [(Currency.USD,
        ((cashPositions f).map (fun p =>
          ({ currency := Currency.USD,
             quantity := (Decimal p.beginningValue).getD 0 } : Cash))).foldl Cash.add
          { currency := Currency.USD, quantity := 0 })] } : AccountBalance) = _
      rw [foldl_cash_add (cashPositions f) 0]
      rfl
    refine ⟨?_, ?_⟩
    · exact { FidelityAccount.init (some f) transactionsFile lenient with
        cacheBalance := some { cash := [(Currency.USD,
          { currency := Currency.USD, quantity := cashRowSum f })] } }
    · unfold FidelityAccount.balanceCall
      simp only [FidelityAccount.init]
      rw [hparse]
      rfl

/-- C10 witness: a concrete file with two CASH rows of beginning values
100.25 and 49.75, a short row and a stock row, balances to USD 150. -/
theorem c10_balance_mapping_witness :
    ∃ s, (FidelityAccount.init (some c10Rows) none false).balanceCall =
      Except.ok ({ cash := [(Currency.USD,
        { currency := Currency.USD, quantity := 150 })] }, s, true) := by
  obtain ⟨h1, h2⟩ := c10_balance_mapping (some c10Rows) none false
  obtain ⟨s, hs⟩ := h2 c10Rows rfl (by with_unfolding_all decide)
  have hsum : cashRowSum c10Rows = 150 := by with_unfolding_all decide
  rw [hsum] at hs
  exact ⟨s, hs⟩

/- ## C2 — memoization of positions(), activity() and balance() -/

/-- After a successful `positions()` call, a second call returns the same
value and the same state, re-running the parse exactly when a positions file
is configured and the cached result is empty (Python falsiness). -/
theorem positionsCall_repeat (acc : FidelityAccount) (ps : List Position)
    (s : FidelityAccount) (b : Bool)
    (h : acc.positionsCall = Except.ok (ps, s, b)) :
    s.positionsCall = Except.ok (ps, s, acc.positionsFile.isSome && ps.isEmpty) := by
  unfold FidelityAccount.positionsCall at h ⊢
  cases hpf : acc.positionsFile with
  | none =>
    simp only [hpf, Except.ok.injEq, Prod.mk.injEq] at h
    obtain ⟨rfl, rfl, rfl⟩ := h
    simp only [hpf]
    rfl
  | some f =>
    simp only [hpf] at h
    by_cases hc : pyTruthySeq acc.cachePositions = true
    · rw [if_pos hc] at h
      simp only [Except.ok.injEq, Prod.mk.injEq] at h
      obtain ⟨rfl, rfl, rfl⟩ := h
      cases hcache : acc.cachePositions with
      | none => rw [hcache] at hc; cases hc
      | some l =>
        rw [hcache] at hc
        have hl : l.isEmpty = false := by
          unfold pyTruthySeq at hc
          simpa using hc
        simp only [hpf, hcache, if_pos hc]
        simp [hl]
    · rw [if_neg hc] at h
      cases hp : _parsePositions f acc.lenient with
      | error e => rw [hp] at h; cases h
      | ok ps0 =>
        rw [hp] at h
        simp only [Except.ok.injEq, Prod.mk.injEq] at h
        obtain ⟨rfl, rfl, rfl⟩ := h
        simp only [hpf]
        cases ps0 with
        | nil =>
          rw [if_neg (by decide :
            ¬ pyTruthySeq (some ([] : List Position)) = true)]
          rw [show ({ acc with cachePositions := some ([] : List Position) } :
            FidelityAccount).lenient = acc.lenient from rfl]
          rw [hp]
          rfl
        | cons p rest =>
          have htr : pyTruthySeq (some (p :: rest)) = true := rfl
          rw [if_pos htr]
          rfl

/-- After a successful `activity()` call, a second call returns the same
value and the same state, re-running the parse exactly when a transactions
file is configured and the cached result is empty (Python falsiness). -/
theorem activityCall_repeat (acc : FidelityAccount) (as : List Activity)
    (s : FidelityAccount) (b : Bool)
    (h : acc.activityCall = Except.ok (as, s, b)) :
    s.activityCall = Except.ok (as, s, acc.transactionsFile.isSome && as.isEmpty) := by
  unfold FidelityAccount.activityCall at h ⊢
  cases hpf : acc.transactionsFile with
  | none =>
    simp only [hpf, Except.ok.injEq, Prod.mk.injEq] at h
    obtain ⟨rfl, rfl, rfl⟩ := h
    simp only [hpf]
    rfl
  | some f =>
    simp only [hpf] at h
    by_cases hc : pyTruthySeq acc.cacheActivity = true
    · rw [if_pos hc] at h
      simp only [Except.ok.injEq, Prod.mk.injEq] at h
      obtain ⟨rfl, rfl, rfl⟩ := h
      cases hcache : acc.cacheActivity with
      | none => rw [hcache] at hc; cases hc
      | some l =>
        rw [hcache] at hc
        have hl : l.isEmpty = false := by
          unfold pyTruthySeq at hc
          simpa using hc
        simp only [hpf, hcache, if_pos hc]
        simp [hl]
    · rw [if_neg hc] at h
      cases hp : _parseTransactions f acc.lenient with
      | error e => rw [hp] at h; cases h
      | ok as0 =>
        rw [hp] at h
        simp only [Except.ok.injEq, Prod.mk.injEq] at h
        obtain ⟨rfl, rfl, rfl⟩ := h
        simp only [hpf]
        cases as0 with
        | nil =>
          rw [if_neg (by decide :
            ¬ pyTruthySeq (some ([] : List Activity)) = true)]
          rw [show ({ acc with cacheActivity := some ([] : List Activity) } :
            FidelityAccount).lenient = acc.lenient from rfl]
          rw [hp]
          rfl
        | cons a rest =>
          have htr : pyTruthySeq (some (a :: rest)) = true := rfl
          rw [if_pos htr]
          rfl

/-- After a successful `balance()` call, a second call returns the same value
and never re-parses: a constructed `AccountBalance` is always truthy. -/
theorem balanceCall_repeat (acc : FidelityAccount) (bal : AccountBalance)
    (s : FidelityAccount) (b : Bool)
    (h : acc.balanceCall = Except.ok (bal, s, b)) :
    s.balanceCall = Except.ok (bal, s, false) := by
  unfold FidelityAccount.balanceCall at h ⊢
  cases hpf : acc.positionsFile with
  | none =>
    simp only [hpf, Except.ok.injEq, Prod.mk.injEq] at h
    obtain ⟨rfl, rfl, rfl⟩ := h
    simp only [hpf]
  | some f =>
    simp only [hpf] at h
    by_cases hc : pyTruthyBalance acc.cacheBalance = true
    · rw [if_pos hc] at h
      simp only [Except.ok.injEq, Prod.mk.injEq] at h
      obtain ⟨rfl, rfl, rfl⟩ := h
      simp only [hpf, if_pos hc]
    · rw [if_neg hc] at h
      cases hp : _parseBalance f acc.lenient with
      | error e => rw [hp] at h; cases h
      | ok bal0 =>
        rw [hp] at h
        simp only [Except.ok.injEq, Prod.mk.injEq] at h
        obtain ⟨rfl, rfl, rfl⟩ := h
        simp only [hpf]
        have htr : pyTruthyBalance (some bal0) = true := rfl
        rw [if_pos htr]
        rfl

/-- C2 (amended): after any successful first call, a repeated call to
`positions()`, `activity()` or `balance()` returns the same value and leaves
the state unchanged; `balance()` never re-parses, while `positions()` and
`activity()` re-run the file parse exactly when a source is configured and the
cached result is the empty sequence, which Python falsiness conflates with
"not yet computed". -/
theorem c2_memoized_calls (acc : FidelityAccount) :
    (∀ ps s b, acc.positionsCall = Except.ok (ps, s, b) →
      s.positionsCall = Except.ok (ps, s, acc.positionsFile.isSome && ps.isEmpty)) ∧
    (∀ as s b, acc.activityCall = Except.ok (as, s, b) →
      s.activityCall = Except.ok (as, s, acc.transactionsFile.isSome && as.isEmpty)) ∧
    (∀ bal s b, acc.balanceCall = Except.ok (bal, s, b) →
      s.balanceCall = Except.ok (bal, s, false)) :=
  ⟨fun ps s b h => positionsCall_repeat acc ps s b h,
   fun as s b h => activityCall_repeat acc as s b h,
   fun bal s b h => balanceCall_repeat acc bal s b h⟩

/-- C2 counterexample: on an account whose positions file parses to the empty
list, the first `positions()` call parses (flag `true`) and caches, and the
second call parses the file again (flag `true` once more) instead of serving
the cache, because the empty cached list is falsy. -/
theorem c2_memoized_calls_counterexample :
    FidelityAccount.positionsCall c2Account =
      Except.ok ([], c2AccountCached, true) ∧
    FidelityAccount.positionsCall c2AccountCached =
      Except.ok ([], c2AccountCached, true) := by
  constructor <;> with_unfolding_all decide

/-- C2 witness: the amended statement applied to the concrete account. -/
theorem c2_memoized_calls_witness :
    FidelityAccount.positionsCall c2AccountCached =
      Except.ok ([], c2AccountCached, true) := by
  obtain ⟨hpos, hact, hbal⟩ := c2_memoized_calls c2Account
  have h1 : FidelityAccount.positionsCall c2Account =
      Except.ok ([], c2AccountCached, true) := by
    with_unfolding_all decide
  have h2 := hpos [] c2AccountCached true h1
  simpa [c2Account, FidelityAccount.init] using h2

/- ## C3 — trade fee and amount arithmetic -/

theorem ofOption_ok {α : Type} {o : Option α} {e : ParseError} {a : α}
    (h : ofOption o e = Except.ok a) : o = some a := by
  cases o with
  | none => cases h
  | some b => cases h; rfl

theorem ofOption_some_eq {α : Type} (a : α) (e : ParseError) :
    ofOption (some a) e = Except.ok a := rfl

theorem ofOption_none_eq {α : Type} (e : ParseError) :
    ofOption (none : Option α) e = Except.error e := rfl

/-- Inversion for the optional-decimal fields. -/
theorem optionalDecimal_ok {field : String} {c : ℚ}
    (h : optionalDecimal field = Except.ok c) :
    c = if field = "" then 0 else (Decimal field).getD 0 := by
  unfold optionalDecimal at h
  by_cases hf : field = ""
  · rw [if_pos hf] at h
    cases h
    rw [if_pos hf]
  · rw [if_neg hf] at h
    cases hd : Decimal field with
    | none => rw [hd, ofOption_none_eq] at h; cases h
    | some c' =>
      rw [hd, ofOption_some_eq] at h
      cases h
      rw [if_neg hf]
      rfl

/-- Inversion for the amount field. -/
theorem amountPart_ok {field : String} {fees a : ℚ}
    (h : amountPart field fees = Except.ok a) :
    a = if field = "" then 0 else (Decimal field).getD 0 + fees := by
  unfold amountPart at h
  by_cases hf : field = ""
  · rw [if_pos hf] at h
    cases h
    rw [if_pos hf]
  · rw [if_neg hf] at h
    cases hd : Decimal field with
    | none => rw [hd, ofOption_none_eq] at h; cases h
    | some a' =>
      rw [hd, ofOption_some_eq] at h
      cases h
      rw [if_neg hf]
      rfl

/-- C3 (amended): for every transaction record forced into a Trade, the total
fees are the commission field plus the fees field with empty fields counting
as zero, denominated in the record's own currency; the amount equals the
parsed amount field plus the total fees when the amount field is non-empty,
and zero — without the fees added — when the amount field is empty. -/
theorem c3_trade_fees_and_amount (t : _FidelityTransaction) (fl : TradeFlags)
    (tr : Trade) (h : _forceParseFidelityTransaction t fl = Except.ok tr) :
    Currency.fromCode t.currency = some tr.amount.currency ∧
    tr.fees.currency = tr.amount.currency ∧
    tr.fees.quantity =
      (if t.commission = "" then 0 else (Decimal t.commission).getD 0) +
      (if t.fees = "" then 0 else (Decimal t.fees).getD 0) ∧
    tr.amount.quantity =
      (if t.amount = "" then 0
       else (Decimal t.amount).getD 0 + tr.fees.quantity) := by
  unfold _forceParseFidelityTransaction at h
  cases hq : ofOption (Decimal t.quantity) ParseError.malformed with
  | error e => rw [hq] at h; simp only [Bind.bind, Except.bind] at h; cases h
  | ok q =>
    rw [hq] at h
    simp only [Bind.bind, Except.bind] at h
    cases hc : optionalDecimal t.commission with
    | error e => rw [hc] at h; simp only [] at h; cases h
    | ok c =>
      rw [hc] at h
      simp only [] at h
      cases hf : optionalDecimal t.fees with
      | error e => rw [hf] at h; simp only [] at h; cases h
      | ok f =>
        rw [hf] at h
        simp only [] at h
        cases ha : amountPart t.amount (0 + c + f) with
        | error e => rw [ha] at h; simp only [] at h; cases h
        | ok a =>
          rw [ha] at h
          simp only [] at h
          cases hcur : ofOption (Currency.fromCode t.currency) ParseError.malformed with
          | error e => rw [hcur] at h; simp only [] at h; cases h
          | ok cur =>
            rw [hcur] at h
            simp only [] at h
            cases hdate : ofOption (_parseFidelityTransactionDate t.date)
                ParseError.malformed with
            | error e => rw [hdate] at h; simp only [] at h; cases h
            | ok d =>
              rw [hdate] at h
              simp only [] at h
              cases hins : _guessInstrumentFromSymbol t.symbol cur with
              | error e => rw [hins] at h; simp only [] at h; cases h
              | ok ins =>
                rw [hins] at h
                simp only [] at h
                cases h
                refine ⟨ofOption_ok hcur, rfl, ?_, ?_⟩
                · show 0 + c + f = _
                  rw [optionalDecimal_ok hc, optionalDecimal_ok hf, zero_add]
                · show a = if t.amount = "" then 0
                    else (Decimal t.amount).getD 0 + (0 + c + f)
                  rw [amountPart_ok ha]

/-- C3 counterexample: a bought-trade record with commission 4.95 and an
empty amount field maps to a Trade whose amount is 0, not 0 plus the total
fees as the claim would have it. -/
theorem c3_trade_fees_and_amount_counterexample :
    _parseFidelityTransaction c3Record = Except.ok (some (Activity.trade c3Trade)) ∧
    c3Trade.amount.quantity ≠ (Decimal c3Record.amount).getD 0 + c3Trade.fees.quantity := by
  constructor
  · with_unfolding_all decide
  · with_unfolding_all decide

/-- C3 witness: the amended statement applied to a record with commission 1,
fees 0.5 and amount 10 — total fees 1.5, amount 11.5. -/
theorem c3_trade_fees_and_amount_witness :
    c3WitnessTrade.fees.quantity =
      (if c3WitnessRecord.commission = "" then 0
       else (Decimal c3WitnessRecord.commission).getD 0) +
      (if c3WitnessRecord.fees = "" then 0
       else (Decimal c3WitnessRecord.fees).getD 0) ∧
    c3WitnessTrade.amount.quantity =
      (if c3WitnessRecord.amount = "" then 0
       else (Decimal c3WitnessRecord.amount).getD 0 +
         c3WitnessTrade.fees.quantity) := by
  have h : _forceParseFidelityTransaction c3WitnessRecord TradeFlags.OPEN =
      Except.ok c3WitnessTrade := by
    with_unfolding_all decide
  obtain ⟨h1, h2, h3, h4⟩ :=
    c3_trade_fees_and_amount c3WitnessRecord TradeFlags.OPEN c3WitnessTrade h
  exact ⟨h3, h4⟩

/- ## C4 — trade-code decoding -/

theorem TradeFlags.union_NONE (a : TradeFlags) : a.union TradeFlags.NONE = a := by
  cases a
  simp [TradeFlags.union, TradeFlags.NONE]

/-- Inversion of the decoding loop on success: the decoded set is the union
over the codes of the table's flags, empty pieces contributing nothing. -/
theorem decodeCodes_ok (codes : List String) : ∀ (init out : TradeFlags),
    decodeCodes init codes = Except.ok out →
    out = codes.foldl
      (fun a c => a.union ((flagsByCode c).getD TradeFlags.NONE)) init := by
  induction codes with
  | nil => intro i o h; cases h; rfl
  | cons c rest ih =>
    intro i o h
    unfold decodeCodes at h
    by_cases hc : c = ""
    · rw [if_pos hc] at h
      rw [ih i o h]
      subst hc
      simp [List.foldl_cons, TradeFlags.union_NONE, flagsByCode]
    · rw [if_neg hc] at h
      cases hfc : flagsByCode c with
      | none => rw [hfc] at h; simp only [] at h; cases h
      | some fl =>
        rw [hfc] at h
        simp only [] at h
        rw [ih _ _ h]
        simp [List.foldl_cons, hfc]

/-- The decoding loop fails with the unknown-code error whenever some
non-empty code is outside the table. -/
theorem decodeCodes_unknown (codes : List String) (c : String) (hc : c ∈ codes)
    (hne : c ≠ "") (hf : flagsByCode c = none) :
    ∀ init, decodeCodes init codes = Except.error ParseError.unknownCode := by
  induction codes with
  | nil => cases hc
  | cons h t ih =>
    intro i
    unfold decodeCodes
    by_cases hh : h = ""
    · rw [if_pos hh]
      have hct : c ∈ t := by
        rcases List.mem_cons.mp hc with hch | hct
        · exact absurd (hch.trans hh) hne
        · exact hct
      exact ih hct i
    · rw [if_neg hh]
      cases hfh : flagsByCode h with
      | none => rfl
      | some flh =>
        have hct : c ∈ t := by
          rcases List.mem_cons.mp hc with hch | hct
          · subst hch; rw [hf] at hfh; cases hfh
          · exact hct
        exact ih hct (i.union flh)

/-- C4: in every trade confirmation record, a non-empty semicolon-separated
code outside the decoding table makes `parseTradeConfirm` raise the
unknown-code error; and whenever a Trade is produced, its flags equal the
union over the codes of the table's flags, with OPEN or CLOSE inferred from
the buy/sell side when neither was decoded. -/
theorem c4_trade_code_flags :
    (∀ (t : IBTradeConfirm) (c : String), c ∈ t.code.splitOn (";") → c ≠ "" →
      flagsByCode c = none →
      parseTradeConfirm t = Except.error ParseError.unknownCode) ∧
    (∀ (t : IBTradeConfirm) (tr : Trade), parseTradeConfirm t = Except.ok tr →
      tr.flags = specTradeFlags t.code t.buySell) := by
  constructor
  · intro t c hc hne hf
    unfold parseTradeConfirm
    rw [decodeCodes_unknown (t.code.splitOn (";")) c hc hne hf TradeFlags.NONE]
    rfl
  · intro t tr h
    unfold parseTradeConfirm at h
    cases hd : decodeCodes TradeFlags.NONE (t.code.splitOn (";")) with
    | error e => rw [hd] at h; simp only [Bind.bind, Except.bind] at h; cases h
    | ok decoded =>
      rw [hd] at h
      simp only [Bind.bind, Except.bind] at h
      cases h1 : ofOption (parseYYYYMMDD t.tradeDate) ParseError.malformed with
      | error e => rw [h1] at h; simp only [] at h; cases h
      | ok date =>
        rw [h1] at h
        simp only [] at h
        cases h2 : instrumentForConfirm t with
        | error e => rw [h2] at h; simp only [] at h; cases h
        | ok ins =>
          rw [h2] at h
          simp only [] at h
          cases h3 : ofOption (Decimal t.quantity) ParseError.malformed with
          | error e => rw [h3] at h; simp only [] at h; cases h
          | ok q =>
            rw [h3] at h
            simp only [] at h
            cases h4 : ofOption (Currency.fromCode t.currency) ParseError.malformed with
            | error e => rw [h4] at h; simp only [] at h; cases h
            | ok cur =>
              rw [h4] at h
              simp only [] at h
              cases h5 : ofOption (Decimal t.proceeds) ParseError.malformed with
              | error e => rw [h5] at h; simp only [] at h; cases h
              | ok pr =>
                rw [h5] at h
                simp only [] at h
                cases h6 : ofOption (Currency.fromCode t.commissionCurrency)
                    ParseError.malformed with
                | error e => rw [h6] at h; simp only [] at h; cases h
                | ok ccur =>
                  rw [h6] at h
                  simp only [] at h
                  cases h7 : ofOption (Decimal t.commission) ParseError.malformed with
                  | error e => rw [h7] at h; simp only [] at h; cases h
                  | ok com =>
                    rw [h7] at h
                    simp only [] at h
                    cases h8 : ofOption (Decimal t.tax) ParseError.malformed with
                    | error e => rw [h8] at h; simp only [] at h; cases h
                    | ok tax =>
                      rw [h8] at h
                      simp only [] at h
                      cases h
                      unfold specTradeFlags
                      rw [show decoded = (t.code.splitOn (";")).foldl
                        (fun a c => a.union ((flagsByCode c).getD TradeFlags.NONE))
                        TradeFlags.NONE
                        from decodeCodes_ok (t.code.splitOn (";")) TradeFlags.NONE
                          decoded hd]

/-- C4 witness: the code Z raises the unknown-code error, and a record with
codes C and Ep decodes to CLOSE and EXPIRED. -/
theorem c4_trade_code_flags_witness :
    parseTradeConfirm c4ErrRecord = Except.error ParseError.unknownCode ∧
    c4OkTrade.flags = specTradeFlags c4OkRecord.code c4OkRecord.buySell ∧
    specTradeFlags c4OkRecord.code c4OkRecord.buySell =
      TradeFlags.CLOSE.union TradeFlags.EXPIRED := by
  obtain ⟨h1, h2⟩ := c4_trade_code_flags
  refine ⟨?_, ?_, ?_⟩
  · exact h1 c4ErrRecord ("Z") (by with_unfolding_all decide) (by decide) (by decide)
  · exact h2 c4OkRecord c4OkTrade (by with_unfolding_all decide)
  · with_unfolding_all decide

/- ## C6 — trade amount and fee legs -/

/-- C6: every successfully mapped trade confirmation yields a Trade whose
amount is the parsed proceeds field in the trade's own currency and whose
fees are the negated sum of the commission and tax fields in the commission
currency. -/
theorem c6_trade_amount_fees (t : IBTradeConfirm) (tr : Trade)
    (h : parseTradeConfirm t = Except.ok tr) :
    ∃ cur ccur p com tax,
      Currency.fromCode t.currency = some cur ∧
      Decimal t.proceeds = some p ∧
      Currency.fromCode t.commissionCurrency = some ccur ∧
      Decimal t.commission = some com ∧
      Decimal t.tax = some tax ∧
      tr.amount = { currency := cur, quantity := p } ∧
      tr.fees = { currency := ccur, quantity := -(com + tax) } := by
  unfold parseTradeConfirm at h
  cases hd : decodeCodes TradeFlags.NONE (t.code.splitOn (";")) with
  | error e => rw [hd] at h; simp only [Bind.bind, Except.bind] at h; cases h
  | ok decoded =>
    rw [hd] at h
    simp only [Bind.bind, Except.bind] at h
    cases h1 : ofOption (parseYYYYMMDD t.tradeDate) ParseError.malformed with
    | error e => rw [h1] at h; simp only [] at h; cases h
    | ok date =>
      rw [h1] at h
      simp only [] at h
      cases h2 : instrumentForConfirm t with
      | error e => rw [h2] at h; simp only [] at h; cases h
      | ok ins =>
        rw [h2] at h
        simp only [] at h
        cases h3 : ofOption (Decimal t.quantity) ParseError.malformed with
        | error e => rw [h3] at h; simp only [] at h; cases h
        | ok q =>
          rw [h3] at h
          simp only [] at h
          cases h4 : ofOption (Currency.fromCode t.currency) ParseError.malformed with
          | error e => rw [h4] at h; simp only [] at h; cases h
          | ok cur =>
            rw [h4] at h
            simp only [] at h
            cases h5 : ofOption (Decimal t.proceeds) ParseError.malformed with
            | error e => rw [h5] at h; simp only [] at h; cases h
            | ok pr =>
              rw [h5] at h
              simp only [] at h
              cases h6 : ofOption (Currency.fromCode t.commissionCurrency)
                  ParseError.malformed with
              | error e => rw [h6] at h; simp only [] at h; cases h
              | ok ccur =>
                rw [h6] at h
                simp only [] at h
                cases h7 : ofOption (Decimal t.commission) ParseError.malformed with
                | error e => rw [h7] at h; simp only [] at h; cases h
                | ok com =>
                  rw [h7] at h
                  simp only [] at h
                  cases h8 : ofOption (Decimal t.tax) ParseError.malformed with
                  | error e => rw [h8] at h; simp only [] at h; cases h
                  | ok tax =>
                    rw [h8] at h
                    simp only [] at h
                    cases h
                    exact ⟨cur, ccur, pr, com, tax, ofOption_ok h4,
                      ofOption_ok h5, ofOption_ok h6, ofOption_ok h7,
                      ofOption_ok h8, rfl, rfl⟩

/-- C6 witness: commission 1.00 and tax 0.25 in USD yield fees of
USD −1.25. -/
theorem c6_trade_amount_fees_witness :
    c6Trade.amount = { currency := Currency.USD, quantity := -50 } ∧
    c6Trade.fees = { currency := Currency.USD, quantity := -(5 / 4) } := by
  have h : parseTradeConfirm c6Record = Except.ok c6Trade := by
    with_unfolding_all decide
  obtain ⟨cur, ccur, p, com, tax, hcur, hp, hccur, hcom, htax, ham, hfee⟩ :=
    c6_trade_amount_fees c6Record c6Trade h
  have e1 : Currency.fromCode c6Record.currency = some Currency.USD := by
    with_unfolding_all decide
  have e2 : Decimal c6Record.proceeds = some (-50) := by
    with_unfolding_all decide
  have e3 : Currency.fromCode c6Record.commissionCurrency = some Currency.USD := by
    with_unfolding_all decide
  have e4 : Decimal c6Record.commission = some 1 := by
    with_unfolding_all decide
  have e5 : Decimal c6Record.tax = some (1 / 4) := by
    with_unfolding_all decide
  rw [e1] at hcur
  rw [e2] at hp
  rw [e3] at hccur
  rw [e4] at hcom
  rw [e5] at htax
  cases hcur
  cases hp
  cases hccur
  cases hcom
  cases htax
  refine ⟨ham, ?_⟩
  rw [hfee]
  norm_num

/- ## C7 — transaction action dispatch -/

/-- The flags passed into `_forceParseFidelityTransaction` are the flags of
the produced Trade. -/
theorem forceParse_flags (t : _FidelityTransaction) (fl : TradeFlags) (tr : Trade)
    (h : _forceParseFidelityTransaction t fl = Except.ok tr) : tr.flags = fl := by
  unfold _forceParseFidelityTransaction at h
  cases hq : ofOption (Decimal t.quantity) ParseError.malformed with
  | error e => rw [hq] at h; simp only [Bind.bind, Except.bind] at h; cases h
  | ok q =>
    rw [hq] at h
    simp only [Bind.bind, Except.bind] at h
    cases hc : optionalDecimal t.commission with
    | error e => rw [hc] at h; simp only [] at h; cases h
    | ok c =>
      rw [hc] at h
      simp only [] at h
      cases hf : optionalDecimal t.fees with
      | error e => rw [hf] at h; simp only [] at h; cases h
      | ok f =>
        rw [hf] at h
        simp only [] at h
        cases ha : amountPart t.amount (0 + c + f) with
        | error e => rw [ha] at h; simp only [] at h; cases h
        | ok a =>
          rw [ha] at h
          simp only [] at h
          cases hcur : ofOption (Currency.fromCode t.currency) ParseError.malformed with
          | error e => rw [hcur] at h; simp only [] at h; cases h
          | ok cur =>
            rw [hcur] at h
            simp only [] at h
            cases hdate : ofOption (_parseFidelityTransactionDate t.date)
                ParseError.malformed with
            | error e => rw [hdate] at h; simp only [] at h; cases h
            | ok d =>
              rw [hdate] at h
              simp only [] at h
              cases hins : _guessInstrumentFromSymbol t.symbol cur with
              | error e => rw [hins] at h; simp only [] at h; cases h
              | ok ins =>
                rw [hins] at h
                simp only [] at h
                cases h
                rfl

/-- Two incomparable patterns cannot both start the same string. -/
theorem strStartsWith_disjoint {s p1 p2 : String}
    (h1 : strStartsWith s p1 = true)
    (hnp : ¬ p1.toList.isPrefixOf p2.toList = true)
    (hnp2 : ¬ p2.toList.isPrefixOf p1.toList = true) :
    strStartsWith s p2 = false := by
  by_contra h2'
  rw [Bool.not_eq_false] at h2'
  unfold strStartsWith at h1 h2'
  rw [List.isPrefixOf_iff_prefix] at h1 h2'
  rcases List.prefix_or_prefix_of_prefix h1 h2' with hp | hp
  · rw [← List.isPrefixOf_iff_prefix] at hp
    exact hnp hp
  · rw [← List.isPrefixOf_iff_prefix] at hp
    exact hnp2 hp

/-- C7: the per-record action mapping — DIVIDEND RECEIVED yields a cash
payment against a stock in the row's symbol and currency with proceeds equal
to the amount field; INTEREST EARNED yields a cash payment with no
instrument; actions beginning YOU BOUGHT, YOU SOLD and REINVESTMENT yield
trades flagged OPEN, CLOSE and OPEN with DRIP respectively; and every other
action yields no activity and no error. -/
theorem c7_action_dispatch (t : _FidelityTransaction) :
    (t.action = "DIVIDEND RECEIVED" →
      ∀ a, _parseFidelityTransaction t = Except.ok (some a) →
      ∃ d cur amt, _parseFidelityTransactionDate t.date = some d ∧
        Currency.fromCode t.currency = some cur ∧
        Decimal t.amount = some amt ∧
        a = Activity.payment
          ⟨d, some (Instrument.stock t.symbol cur), ⟨cur, amt⟩⟩) ∧
    (t.action = "INTEREST EARNED" →
      ∀ a, _parseFidelityTransaction t = Except.ok (some a) →
      ∃ d cur amt, _parseFidelityTransactionDate t.date = some d ∧
        Currency.fromCode t.currency = some cur ∧
        Decimal t.amount = some amt ∧
        a = Activity.payment ⟨d, none, ⟨cur, amt⟩⟩) ∧
    (strStartsWith t.action ("YOU BOUGHT") = true →
      ∀ a, _parseFidelityTransaction t = Except.ok (some a) →
      ∃ tr, a = Activity.trade tr ∧ tr.flags = TradeFlags.OPEN) ∧
    (strStartsWith t.action ("YOU SOLD") = true →
      ∀ a, _parseFidelityTransaction t = Except.ok (some a) →
      ∃ tr, a = Activity.trade tr ∧ tr.flags = TradeFlags.CLOSE) ∧
    (strStartsWith t.action ("REINVESTMENT") = true →
      ∀ a, _parseFidelityTransaction t = Except.ok (some a) →
      ∃ tr, a = Activity.trade tr ∧
        tr.flags = TradeFlags.OPEN.union TradeFlags.DRIP) ∧
    (t.action ≠ "DIVIDEND RECEIVED" → t.action ≠ "INTEREST EARNED" →
      strStartsWith t.action ("YOU BOUGHT") = false →
      strStartsWith t.action ("YOU SOLD") = false →
      strStartsWith t.action ("REINVESTMENT") = false →
      _parseFidelityTransaction t = Except.ok none) := by
  refine ⟨?_, ?_, ?_, ?_, ?_, ?_⟩
  · intro hdiv a h
    unfold _parseFidelityTransaction at h
    rw [if_pos hdiv] at h
    cases h1 : ofOption (_parseFidelityTransactionDate t.date) ParseError.malformed with
    | error e => rw [h1] at h; simp only [Bind.bind, Except.bind] at h; cases h
    | ok d =>
      rw [h1] at h
      simp only [Bind.bind, Except.bind] at h
      cases h2 : ofOption (Currency.fromCode t.currency) ParseError.malformed with
      | error e => rw [h2] at h; simp only [] at h; cases h
      | ok cur =>
        rw [h2] at h
        simp only [] at h
        cases h3 : ofOption (Decimal t.amount) ParseError.malformed with
        | error e => rw [h3] at h; simp only [] at h; cases h
        | ok amt =>
          rw [h3] at h
          simp only [] at h
          cases h
          exact ⟨d, cur, amt, ofOption_ok h1, ofOption_ok h2, ofOption_ok h3, rfl⟩
  · intro hint a h
    unfold _parseFidelityTransaction at h
    rw [if_neg (by rw [hint]; decide), if_pos hint] at h
    cases h1 : ofOption (_parseFidelityTransactionDate t.date) ParseError.malformed with
    | error e => rw [h1] at h; simp only [Bind.bind, Except.bind] at h; cases h
    | ok d =>
      rw [h1] at h
      simp only [Bind.bind, Except.bind] at h
      cases h2 : ofOption (Currency.fromCode t.currency) ParseError.malformed with
      | error e => rw [h2] at h; simp only [] at h; cases h
      | ok cur =>
        rw [h2] at h
        simp only [] at h
        cases h3 : ofOption (Decimal t.amount) ParseError.malformed with
        | error e => rw [h3] at h; simp only [] at h; cases h
        | ok amt =>
          rw [h3] at h
          simp only [] at h
          cases h
          exact ⟨d, cur, amt, ofOption_ok h1, ofOption_ok h2, ofOption_ok h3, rfl⟩
  · intro hyb a h
    have hne1 : t.action ≠ "DIVIDEND RECEIVED" := by
      intro he; rw [he] at hyb; exact absurd hyb (by decide)
    have hne2 : t.action ≠ "INTEREST EARNED" := by
      intro he; rw [he] at hyb; exact absurd hyb (by decide)
    unfold _parseFidelityTransaction at h
    rw [if_neg hne1, if_neg hne2] at h
    simp only [hyb, if_true] at h
    rw [if_neg (by decide :
      ¬ (some TradeFlags.OPEN).getD TradeFlags.NONE = TradeFlags.NONE)] at h
    cases hforce : _forceParseFidelityTransaction t
        ((some TradeFlags.OPEN).getD TradeFlags.NONE) with
    | error e => rw [hforce] at h; simp only [Except.map] at h; cases h
    | ok tr =>
      rw [hforce] at h
      simp only [Except.map] at h
      cases h
      exact ⟨tr, rfl, forceParse_flags t _ tr hforce⟩
  · intro hys a h
    have hne1 : t.action ≠ "DIVIDEND RECEIVED" := by
      intro he; rw [he] at hys; exact absurd hys (by decide)
    have hne2 : t.action ≠ "INTEREST EARNED" := by
      intro he; rw [he] at hys; exact absurd hys (by decide)
    have hnyb : strStartsWith t.action ("YOU BOUGHT") = false :=
      strStartsWith_disjoint hys (by decide) (by decide)
    unfold _parseFidelityTransaction at h
    rw [if_neg hne1, if_neg hne2] at h
    simp only [hnyb, hys, if_true, Bool.false_eq_true, if_false] at h
    rw [if_neg (by decide :
      ¬ (some TradeFlags.CLOSE).getD TradeFlags.NONE = TradeFlags.NONE)] at h
    cases hforce : _forceParseFidelityTransaction t
        ((some TradeFlags.CLOSE).getD TradeFlags.NONE) with
    | error e => rw [hforce] at h; simp only [Except.map] at h; cases h
    | ok tr =>
      rw [hforce] at h
      simp only [Except.map] at h
      cases h
      exact ⟨tr, rfl, forceParse_flags t _ tr hforce⟩
  · intro hre a h
    have hne1 : t.action ≠ "DIVIDEND RECEIVED" := by
      intro he; rw [he] at hre; exact absurd hre (by decide)
    have hne2 : t.action ≠ "INTEREST EARNED" := by
      intro he; rw [he] at hre; exact absurd hre (by decide)
    have hnyb : strStartsWith t.action ("YOU BOUGHT") = false :=
      strStartsWith_disjoint hre (by decide) (by decide)
    have hnys : strStartsWith t.action ("YOU SOLD") = false :=
      strStartsWith_disjoint hre (by decide) (by decide)
    unfold _parseFidelityTransaction at h
    rw [if_neg hne1, if_neg hne2] at h
    simp only [hnyb, hnys, hre, if_true, Bool.false_eq_true, if_false] at h
    rw [if_neg (by decide :
      ¬ (some (TradeFlags.OPEN.union TradeFlags.DRIP)).getD TradeFlags.NONE =
        TradeFlags.NONE)] at h
    cases hforce : _forceParseFidelityTransaction t
        ((some (TradeFlags.OPEN.union TradeFlags.DRIP)).getD TradeFlags.NONE) with
    | error e => rw [hforce] at h; simp only [Except.map] at h; cases h
    | ok tr =>
      rw [hforce] at h
      simp only [Except.map] at h
      cases h
      exact ⟨tr, rfl, forceParse_flags t _ tr hforce⟩
  · intro hne1 hne2 hnyb hnys hnre
    unfold _parseFidelityTransaction
    rw [if_neg hne1, if_neg hne2]
    simp only [hnyb, hnys, hnre, Bool.false_eq_true, if_false]
    rfl

/-- C7 witness: the dividend record maps to a cash payment against the AAPL
stock with the parsed proceeds. -/
theorem c7_action_dispatch_witness :
    ∃ a, _parseFidelityTransaction c7Record = Except.ok (some a) ∧
      ∃ d cur amt, _parseFidelityTransactionDate c7Record.date = some d ∧
        Currency.fromCode c7Record.currency = some cur ∧
        Decimal c7Record.amount = some amt ∧
        a = Activity.payment
          ⟨d, some (Instrument.stock c7Record.symbol cur), ⟨cur, amt⟩⟩ := by
  have hok : _parseFidelityTransaction c7Record = Except.ok (some (Activity.payment
      ⟨{ year := 2019, month := 3, day := 4 },
       some (Instrument.stock ("AAPL") Currency.USD),
       ⟨Currency.USD, 29 / 4⟩⟩)) := by
    with_unfolding_all decide
  obtain ⟨hdiv, _, _, _, _, _⟩ := c7_action_dispatch c7Record
  exact ⟨_, hok, hdiv rfl _ hok⟩

/- ## C8, C9 — quote sentinel and zero filtering -/

/-- A present quote leg comes from a finite, nonzero reported value. -/
theorem tickerLeg_isSome {cur : Currency} {v : TickerValue}
    (h : (tickerLeg cur v).isSome = true) :
    ∃ q, v = TickerValue.finite q ∧ q ≠ 0 ∧
      tickerLeg cur v = some { currency := cur, quantity := q } := by
  cases v with
  | absent => simp [tickerLeg, TickerValue.truthy] at h
  | nan => simp [tickerLeg, TickerValue.truthy, TickerValue.isfinite] at h
  | posInf => simp [tickerLeg, TickerValue.truthy, TickerValue.isfinite] at h
  | negInf => simp [tickerLeg, TickerValue.truthy, TickerValue.isfinite] at h
  | finite q =>
    by_cases hq : q = 0
    · subst hq
      simp [tickerLeg, TickerValue.truthy, TickerValue.isfinite] at h
    · exact ⟨q, rfl, hq, by
        simp [tickerLeg, TickerValue.truthy, TickerValue.isfinite, TickerValue.val, hq]⟩

/-- A finite nonzero reported value yields its cash leg. -/
theorem tickerLeg_finite_ne {cur : Currency} {q : ℚ} (hq : q ≠ 0) :
    tickerLeg cur (TickerValue.finite q) = some { currency := cur, quantity := q } := by
  simp [tickerLeg, TickerValue.truthy, TickerValue.isfinite, TickerValue.val, hq]

/-- A non-finite reported value yields no leg. -/
theorem tickerLeg_not_finite {cur : Currency} {v : TickerValue}
    (h : v.isfinite = false) : tickerLeg cur v = none := by
  cases v with
  | finite q => cases h
  | absent => rfl
  | nan => rfl
  | posInf => rfl
  | negInf => rfl

/-- C8 (amended): each quote leg is included only if the reported value is
present, finite and nonzero; in particular a snapshot with a non-finite last
and finite nonzero bid and ask yields a Quote with last absent and bid and
ask present. -/
theorem c8_quote_leg_filtering (cur : Currency) (tk : Ticker) :
    ((quoteForTicker cur tk).bid.isSome = true →
      ∃ q, tk.bid = TickerValue.finite q ∧ q ≠ 0 ∧
        (quoteForTicker cur tk).bid = some { currency := cur, quantity := q }) ∧
    ((quoteForTicker cur tk).ask.isSome = true →
      ∃ q, tk.ask = TickerValue.finite q ∧ q ≠ 0 ∧
        (quoteForTicker cur tk).ask = some { currency := cur, quantity := q }) ∧
    ((quoteForTicker cur tk).last.isSome = true →
      ∃ q, tk.last = TickerValue.finite q ∧ q ≠ 0 ∧
        (quoteForTicker cur tk).last = some { currency := cur, quantity := q }) ∧
    (∀ qb qa, tk.bid = TickerValue.finite qb → qb ≠ 0 →
      tk.ask = TickerValue.finite qa → qa ≠ 0 →
      tk.last.isfinite = false →
      (quoteForTicker cur tk).bid = some { currency := cur, quantity := qb } ∧
      (quoteForTicker cur tk).ask = some { currency := cur, quantity := qa } ∧
      (quoteForTicker cur tk).last = none) := by
  refine ⟨fun h => tickerLeg_isSome h, fun h => tickerLeg_isSome h,
    fun h => tickerLeg_isSome h, ?_⟩
  intro qb qa hb hbne hask hane hlast
  refine ⟨?_, ?_, ?_⟩
  · show tickerLeg cur tk.bid = _
    rw [hb]
    exact tickerLeg_finite_ne hbne
  · show tickerLeg cur tk.ask = _
    rw [hask]
    exact tickerLeg_finite_ne hane
  · exact tickerLeg_not_finite hlast

/-- C8 counterexample: a snapshot with a finite zero bid, finite ask 1 and a
non-finite last yields a Quote whose bid is absent, although the claim calls
for every finite bid to be present. -/
theorem c8_quote_leg_filtering_counterexample :
    c8Ticker.bid.isfinite = true ∧ c8Ticker.last.isfinite = false ∧
    (quoteForTicker Currency.USD c8Ticker).ask =
      some { currency := Currency.USD, quantity := 1 } ∧
    (quoteForTicker Currency.USD c8Ticker).bid = none := by
  refine ⟨rfl, rfl, ?_, ?_⟩ <;> with_unfolding_all decide

/-- C8 witness: nonzero finite bid 2 and ask 3 with a non-finite last. -/
theorem c8_quote_leg_filtering_witness :
    (quoteForTicker Currency.USD c8WitnessTicker).bid =
      some { currency := Currency.USD, quantity := 2 } ∧
    (quoteForTicker Currency.USD c8WitnessTicker).ask =
      some { currency := Currency.USD, quantity := 3 } ∧
    (quoteForTicker Currency.USD c8WitnessTicker).last = none := by
  obtain ⟨_, _, _, hpart⟩ := c8_quote_leg_filtering Currency.USD c8WitnessTicker
  exact hpart 2 3 rfl (by norm_num) rfl (by norm_num) rfl

/-- C9: a reported price of exactly zero is treated like an absent or
non-finite one — the corresponding leg is omitted — and consequently no Quote
leg ever carries a zero cash value. -/
theorem c9_zero_price_omitted (cur : Currency) (tk : Ticker) :
    (tk.bid = TickerValue.finite 0 → (quoteForTicker cur tk).bid = none) ∧
    (tk.ask = TickerValue.finite 0 → (quoteForTicker cur tk).ask = none) ∧
    (tk.last = TickerValue.finite 0 → (quoteForTicker cur tk).last = none) ∧
    (∀ c, (quoteForTicker cur tk).bid = some c → c.quantity ≠ 0) ∧
    (∀ c, (quoteForTicker cur tk).ask = some c → c.quantity ≠ 0) ∧
    (∀ c, (quoteForTicker cur tk).last = some c → c.quantity ≠ 0) := by
  have hzero : ∀ v : TickerValue, v = TickerValue.finite 0 →
      tickerLeg cur v = none := by
    intro v hv
    subst hv
    simp [tickerLeg, TickerValue.truthy, TickerValue.isfinite]
  have hsome : ∀ (v : TickerValue) (c : Cash), tickerLeg cur v = some c →
      c.quantity ≠ 0 := by
    intro v c hv
    have hs : (tickerLeg cur v).isSome = true := by rw [hv]; rfl
    obtain ⟨q, hq, hqne, heq⟩ := tickerLeg_isSome hs
    rw [heq] at hv
    cases hv
    exact hqne
  exact ⟨hzero tk.bid, hzero tk.ask, hzero tk.last,
    fun c => hsome tk.bid c, fun c => hsome tk.ask c, fun c => hsome tk.last c⟩

/-- C9 witness: a snapshot with a zero bid and ask 5 yields no bid leg, and
any produced leg carries a nonzero amount. -/
theorem c9_zero_price_omitted_witness :
    (quoteForTicker Currency.USD c9Ticker).bid = none ∧
    ∀ c, (quoteForTicker Currency.USD c9Ticker).ask = some c →
      c.quantity ≠ 0 := by
  obtain ⟨h1, _, _, _, h5, _⟩ := c9_zero_price_omitted Currency.USD c9Ticker
  exact ⟨h1 rfl, h5⟩

/- ## C5 — OCC option symbol round trip -/

theorem digitChar_isDigit {k : Nat} (hk : k < 10) : (digitChar k).isDigit = true := by
  interval_cases k <;> decide

theorem digitVal_digitChar {k : Nat} (hk : k < 10) : digitVal (digitChar k) = k := by
  interval_cases k <;> decide

theorem digitChar_ne_newline {k : Nat} (hk : k < 10) : digitChar k ≠ '\x0a' := by
  interval_cases k <;> decide

theorem twoDigits_pad2 {n : Nat} (hn : n < 100) : twoDigits (pad2 n) = some n := by
  have h1 : n / 10 % 10 < 10 := Nat.mod_lt _ (by norm_num)
  have h2 : n % 10 < 10 := Nat.mod_lt _ (by norm_num)
  unfold pad2 twoDigits
  simp only []
  rw [if_pos (by rw [digitChar_isDigit h1, digitChar_isDigit h2]; rfl)]
  rw [digitVal_digitChar h1, digitVal_digitChar h2]
  congr 1
  omega

theorem pad2_all_digits (n : Nat) : (pad2 n).all Char.isDigit = true := by
  have h1 : n / 10 % 10 < 10 := Nat.mod_lt _ (by norm_num)
  have h2 : n % 10 < 10 := Nat.mod_lt _ (by norm_num)
  simp [pad2, digitChar_isDigit h1, digitChar_isDigit h2]

theorem pad8_all_digits (n : Nat) : (pad8 n).all Char.isDigit = true := by
  have h : ∀ m : Nat, m % 10 < 10 := fun m => Nat.mod_lt _ (by norm_num)
  simp [pad8, digitChar_isDigit (h _)]

theorem digitsToNat_pad8 {n : Nat} (hn : n < 100000000) :
    digitsToNat (pad8 n) = n := by
  have h : ∀ m : Nat, m % 10 < 10 := fun m => Nat.mod_lt _ (by norm_num)
  unfold pad8 digitsToNat
  simp only [List.foldl_cons, List.foldl_nil, digitVal_digitChar (h _)]
  omega

theorem formatYYMMDD_length (d : Date) : (formatYYMMDD d).length = 6 := by
  simp [formatYYMMDD, pad2]

theorem formatYYMMDD_all_digits (d : Date) :
    (formatYYMMDD d).all Char.isDigit = true := by
  have h : ∀ m : Nat, m % 10 < 10 := fun m => Nat.mod_lt _ (by norm_num)
  simp [formatYYMMDD, pad2, digitChar_isDigit (h _)]

theorem daysInMonth_le (y m : Nat) : daysInMonth y m ≤ 31 := by
  unfold daysInMonth
  split
  · split <;> omega
  · split <;> omega

/-- `%y%m%d` decoding inverts `yymmdd` formatting on valid dates within the
two-digit-year window 1969–2068. -/
theorem parseYYMMDD_format {d : Date} (hv : validDate d.year d.month d.day = true)
    (hy1 : 1969 ≤ d.year) (hy2 : d.year ≤ 2068) :
    parseYYMMDD (formatYYMMDD d) = some d := by
  have hm : d.month < 100 := by
    unfold validDate at hv
    simp only [Bool.and_eq_true, decide_eq_true_eq] at hv
    omega
  have hd : d.day < 100 := by
    have h31 := daysInMonth_le d.year d.month
    unfold validDate at hv
    simp only [Bool.and_eq_true, decide_eq_true_eq] at hv
    omega
  have hyy : d.year % 100 < 100 := Nat.mod_lt _ (by norm_num)
  have hfmt : formatYYMMDD d =
      [digitChar (d.year % 100 / 10 % 10), digitChar (d.year % 100 % 10),
       digitChar (d.month / 10 % 10), digitChar (d.month % 10),
       digitChar (d.day / 10 % 10), digitChar (d.day % 10)] := by
    simp [formatYYMMDD, pad2]
  rw [hfmt]
  unfold parseYYMMDD
  simp only []
  have e1 : twoDigits [digitChar (d.year % 100 / 10 % 10),
      digitChar (d.year % 100 % 10)] = some (d.year % 100) := twoDigits_pad2 hyy
  have e2 : twoDigits [digitChar (d.month / 10 % 10),
      digitChar (d.month % 10)] = some d.month := twoDigits_pad2 hm
  have e3 : twoDigits [digitChar (d.day / 10 % 10),
      digitChar (d.day % 10)] = some d.day := twoDigits_pad2 hd
  rw [e1, e2, e3]
  simp only []
  have hyear : (if d.year % 100 ≤ 68 then 2000 + d.year % 100
      else 1900 + d.year % 100) = d.year := by
    split <;> omega
  rw [hyear]
  unfold mkValidDate
  rw [if_pos hv]

theorem putCallChar_check (ot : OptionType) :
    (putCallChar ot == 'P' || putCallChar ot == 'C') = true := by
  cases ot <;> rfl

/-- The regex core accepts the built symbol and returns its four groups. -/
theorem occCore_build (u : List Char) (d : Date) (ot : OptionType) (n : Nat)
    (hu : u.length = 6) (hnl : ∀ c ∈ u, c ≠ '\x0a') :
    occCore (u ++ formatYYMMDD d ++ [putCallChar ot] ++ pad8 n) =
      some (u, formatYYMMDD d, putCallChar ot, pad8 n) := by
  have hp8 : (pad8 n).length = 8 := rfl
  have hassoc : u ++ formatYYMMDD d ++ [putCallChar ot] ++ pad8 n =
      u ++ (formatYYMMDD d ++ ([putCallChar ot] ++ pad8 n)) := by
    simp [List.append_assoc]
  have hlen : (u ++ formatYYMMDD d ++ [putCallChar ot] ++ pad8 n).length = 21 := by
    simp [List.length_append, hu, formatYYMMDD_length, hp8]
  have ht6 : (u ++ formatYYMMDD d ++ [putCallChar ot] ++ pad8 n).take 6 = u := by
    rw [hassoc, ← hu, List.take_left]
  have hd6 : (u ++ formatYYMMDD d ++ [putCallChar ot] ++ pad8 n).drop 6 =
      formatYYMMDD d ++ ([putCallChar ot] ++ pad8 n) := by
    rw [hassoc, ← hu, List.drop_left]
  have hd6t : ((u ++ formatYYMMDD d ++ [putCallChar ot] ++ pad8 n).drop 6).take 6 =
      formatYYMMDD d := by
    rw [hd6, ← formatYYMMDD_length d, List.take_left]
  have hd12 : (u ++ formatYYMMDD d ++ [putCallChar ot] ++ pad8 n).drop 12 =
      putCallChar ot :: pad8 n := by
    rw [show (12 : Nat) = 6 + 6 from rfl, ← List.drop_drop, hd6,
      ← formatYYMMDD_length d, List.drop_left]
    rfl
  have hd13 : (u ++ formatYYMMDD d ++ [putCallChar ot] ++ pad8 n).drop 13 =
      pad8 n := by
    rw [show (13 : Nat) = 12 + 1 from rfl, ← List.drop_drop, hd12]
    rfl
  have hall : u.all (fun c => c ≠ '\x0a') = true := by
    rw [List.all_eq_true]
    intro c hc
    exact decide_eq_true (hnl c hc)
  unfold occCore
  rw [if_pos hlen, hd12]
  simp only []
  rw [ht6, hd6t, hd13]
  rw [if_pos (by rw [hall, formatYYMMDD_all_digits, putCallChar_check,
    pad8_all_digits]; rfl)]

/-- Acceptance by the regex core pins the date group. -/
theorem occCore_some_date {cs : List Char} {u0 dt : List Char} {pc : Char}
    {st : List Char} (h : occCore cs = some (u0, dt, pc, st)) :
    dt = (cs.drop 6).take 6 := by
  unfold occCore at h
  split at h
  · split at h
    · simp only [] at h
      split at h
      · cases h
        rfl
      · cases h
    · cases h
  · cases h

/-- Acceptance by the regex core implies the syntactic shape. -/
theorem occCore_some_syn {cs : List Char} {v : List Char × List Char × Char × List Char}
    (h : occCore cs = some v) : occSyntacticShape cs = true := by
  unfold occCore at h
  split at h
  case isTrue h1 =>
    split at h
    case h_1 pc tail heq =>
      simp only [] at h
      split at h
      case isTrue hcond =>
        rw [Bool.and_eq_true, Bool.and_eq_true, Bool.and_eq_true] at hcond
        obtain ⟨⟨⟨ha, hb⟩, hc⟩, hd⟩ := hcond
        simp [occSyntacticShape, h1, hb, hc, hd, heq]
        intro x hx
        simpa using List.all_eq_true.mp ha x hx
      case isFalse _ => cases h
    case h_2 _ => cases h
  case isFalse _ => cases h

/-- C5 (amended): `parseOption` round-trips every symbol built from a
six-character underlying, a valid `yymmdd`-encodable date, a put/call
character and an eight-digit scaled strike, recovering the right-trimmed
underlying, the date, the type and the strike divided by 1000; and every
symbol that is not of this shape — nor of this shape followed by a single
trailing newline, which the `$` anchor tolerates — raises a parse error. -/
theorem c5_occ_option_symbol :
    (∀ (u : List Char) (d : Date) (ot : OptionType) (n : Nat) (cur : Currency),
      u.length = 6 → (∀ c ∈ u, c ≠ '\x0a') →
      validDate d.year d.month d.day = true → 1969 ≤ d.year → d.year ≤ 2068 →
      n < 100000000 →
      parseOption (buildOccSymbol u d ot n) cur =
        Except.ok (Instrument.option (String.mk (rstrip u)) cur d ot
          ((n : ℚ) / 1000))) ∧
    (∀ (s : String) (cur : Currency), occShapeNL s = false →
      parseOption s cur = Except.error ParseError.malformed) := by
  constructor
  · intro u d ot n cur hu hnl hv hy1 hy2 hn
    unfold parseOption buildOccSymbol
    rw [show (String.mk (u ++ formatYYMMDD d ++ [putCallChar ot] ++ pad8 n)).toList =
      u ++ formatYYMMDD d ++ [putCallChar ot] ++ pad8 n from rfl]
    unfold dollarAnchored
    rw [occCore_build u d ot n hu hnl]
    simp only []
    rw [parseYYMMDD_format hv hy1 hy2]
    simp only [ofOption_some_eq, Bind.bind, Except.bind]
    rw [digitsToNat_pad8 hn]
    cases ot with
    | PUT => rfl
    | CALL => rfl
  · intro s cur hshape
    unfold occShapeNL at hshape
    rw [Bool.or_eq_false_iff] at hshape
    obtain ⟨hshape1, hshape2⟩ := hshape
    unfold parseOption dollarAnchored
    cases hc : occCore s.toList with
    | some v =>
      obtain ⟨u0, dt, pc, st⟩ := v
      have hsyn := occCore_some_syn hc
      have hdt := occCore_some_date hc
      have hdate : parseYYMMDD ((s.toList.drop 6).take 6) = none := by
        cases hp : parseYYMMDD ((s.toList.drop 6).take 6) with
        | none => rfl
        | some dd =>
          unfold occShape at hshape1
          rw [hsyn, hp] at hshape1
          simp at hshape1
      simp only []
      subst hdt
      rw [hdate]
      rfl
    | none =>
      simp only []
      by_cases hlast : s.toList.getLast? = some '\x0a'
      · rw [if_pos hlast]
        cases hc2 : occCore s.toList.dropLast with
        | some v2 =>
          obtain ⟨u0, dt, pc, st⟩ := v2
          have hsyn2 := occCore_some_syn hc2
          have hdt2 := occCore_some_date hc2
          have hbeq : (s.toList.getLast? == some '\x0a') = true := by
            rw [hlast]
            rfl
          rw [hbeq, Bool.true_and] at hshape2
          have hdate2 : parseYYMMDD ((s.toList.dropLast.drop 6).take 6) = none := by
            cases hp : parseYYMMDD ((s.toList.dropLast.drop 6).take 6) with
            | none => rfl
            | some dd =>
              rw [hsyn2, hp] at hshape2
              simp at hshape2
          simp only []
          subst hdt2
          rw [hdate2]
          rfl
        | none => rfl
      · rw [if_neg hlast]

/-- C5 counterexample: a symbol of the documented 21-character shape followed
by one newline is not of the claimed shape, yet `parseOption` accepts it
(Python's `$` matches before a final newline) instead of raising. -/
theorem c5_occ_option_symbol_counterexample :
    occShape c5CexSymbol = false ∧
    parseOption c5CexSymbol Currency.USD = Except.ok c5CexOption := by
  constructor
  · decide
  · with_unfolding_all decide

/-- C5 witness: the AAPL 2020-01-17 call with strike 250 encoded as 00250000
round-trips. -/
theorem c5_occ_option_symbol_witness :
    parseOption (buildOccSymbol (("AAPL  ").toList)
        { year := 2020, month := 1, day := 17 } OptionType.CALL 250000)
        Currency.USD =
      Except.ok (Instrument.option (String.mk (rstrip (("AAPL  ").toList)))
        Currency.USD { year := 2020, month := 1, day := 17 } OptionType.CALL
        ((250000 : ℚ) / 1000)) ∧
    String.mk (rstrip (("AAPL  ").toList)) = "AAPL" ∧
    ((250000 : ℚ) / 1000) = 250 := by
  obtain ⟨hrt, herr⟩ := c5_occ_option_symbol
  refine ⟨hrt (("AAPL  ").toList) { year := 2020, month := 1, day := 17 }
    OptionType.CALL 250000 Currency.USD (by decide) (by decide) (by decide)
    (by norm_num) (by norm_num) (by norm_num), by decide, by norm_num⟩
